import Mathlib

/-!
Verification of the barmaid BTW extractor (src/barmaid.c) against its
natural-language specification.

The C program is shallowly embedded as follows.

* A stream (a `FILE*` opened on a regular binary file) is a pair of a byte
  function `s : Nat → Nat` (the byte at each offset, taken mod 256 at every
  read) and a total length `len : Nat`, together with an explicitly threaded
  read position `pos : Nat`.
* `fread(p, 1, n, fil)` returns `min n (len - pos)` items and advances the
  position by that count (POSIX semantics for a regular file: a short count
  happens exactly at end of file).
* `fseek(fil, off, SEEK_SET)` succeeds for every nonnegative `off` (seeking
  past EOF is allowed on a regular file) and fails, leaving the position
  unchanged, for negative `off`.
* Local `uint8_t` buffers are total functions `Nat → Nat`.  Their content
  before first initialisation is indeterminate in C, so each C-stack buffer
  is parameterised by an explicit `junk : Nat → Nat` giving its initial
  bytes; reads out of the declared bounds of `search_buff` likewise return
  `junk` values.  All byte values are normalised mod 256.
* `fileno`/`fstat` (used only to obtain the total file size) are modelled as
  succeeding and returning `len`.
-/

def BUFF_SIZ : Nat := 8192

def LONGEST_MAGIC_STRING : Nat := 32

/-- A byte read from a byte function: values are `uint8_t`, i.e. mod 256. -/
def byteAt (f : Nat → Nat) (k : Nat) : Nat := f k % 256

/-- Number of items delivered by `fread(_, 1, n, fil)` at position `pos` of a
stream of length `len`. -/
def freadCount (len pos n : Nat) : Nat := min n (len - pos)

/-- `fseek(fil, off, SEEK_SET)` on a regular file: any nonnegative offset
succeeds (also past EOF); a negative offset fails and leaves `pos` alone. -/
def fseekPos (pos : Nat) (off : Int) : Nat := if 0 ≤ off then off.toNat else pos

/-- PNG start marker (`barmaid_start_mseq_png` in barmaid.c). -/
def barmaid_start_mseq_png : List Nat :=
  [0x89, 0x50, 0x4E, 0x47, 0x0D, 0x0A, 0x1A, 0x0A,
   0x00, 0x00, 0x00, 0x0D, 0x49, 0x48, 0x44, 0x52]

/-- PNG end marker (`barmaid_end_mseq_png`). -/
def barmaid_end_mseq_png : List Nat :=
  [0x00, 0x00, 0x00, 0x00, 0x49, 0x45, 0x4E, 0x44, 0xAE, 0x42, 0x60, 0x82]

/-- 26-byte start-of-file signature (`barmaid_btw_mseq_sof`):
CR LF "Bar Tender Format File" CR LF. -/
def barmaid_btw_mseq_sof : List Nat :=
  [0x0D, 0x0A, 0x42, 0x61, 0x72, 0x20, 0x54, 0x65, 0x6E, 0x64, 0x65, 0x72,
   0x20, 0x46, 0x6F, 0x72, 0x6D, 0x61, 0x74, 0x20, 0x46, 0x69, 0x6C, 0x65,
   0x0D, 0x0A]

/-- End-of-metadata marker (`barmaid_btw_end_of_meta`). -/
def barmaid_btw_end_of_meta : List Nat := [0xFF, 0xFE, 0xFF, 0x00]

/-- zlib compression marker (`barmaid_btw_zlib`). -/
def barmaid_btw_zlib : List Nat := [0x00, 0x01]

/-- `memcmp(&buf[m], seq, seq.length) == 0`: the bytes of `buf` starting at
index `m` equal the bytes of `seq`. -/
def memcmpBufSeq (buf : Nat → Nat) (m : Nat) (seq : List Nat) : Bool :=
  match seq with
  | [] => true
  | b :: rest => (buf m == b) && memcmpBufSeq buf (m + 1) rest

/-- `fread(&buf[dst], 1, r, fil)` at stream position `pos`: buffer cells
`[dst, dst+r)` receive the stream bytes `[pos, pos+r)`, the rest is kept. -/
def freadIntoBuf (buf : Nat → Nat) (s : Nat → Nat) (dst pos r : Nat) :
    Nat → Nat :=
  fun m => if dst ≤ m ∧ m < dst + r then byteAt s (pos + (m - dst)) else buf m

/-- `memmove(search_buff, &search_buff[BUFF_SIZ], LONGEST_MAGIC_STRING)`. -/
def memmoveOverlap (buf : Nat → Nat) : Nat → Nat :=
  fun m => if m < LONGEST_MAGIC_STRING then buf (BUFF_SIZ + m) else buf m

/-- The inner `for(; i < read; i++)` scan of `barmaid_find_seq`, expressed on
buffer indices `m = LONGEST_MAGIC_STRING + i`: try `count` consecutive
candidate indices starting at `m`, returning the first index whose bytes
`memcmp`-match `seq`. -/
def scanChunk (buf : Nat → Nat) (seq : List Nat) (m count : Nat) : Option Nat :=
  match count with
  | 0 => none
  | c + 1 => if memcmpBufSeq buf m seq then some m else scanChunk buf seq (m + 1) c

/-- The `while((read = fread(...)))` loop of `barmaid_find_seq`.  `pos` is the
stream position (advanced by each `fread`), `chunk` is `chunk_count`, and
`buf` is the current content of `search_buff` (initially the indeterminate
stack bytes).  Returns the C function's `long` result together with the final
stream position.  `fuel` only bounds the recursion; every call through
`barmaid_find_seq` supplies enough fuel that it is never exhausted. -/
def barmaid_find_seq_loop (s : Nat → Nat) (len : Nat) (seq : List Nat)
    (offset : Int) (buf : Nat → Nat) (pos chunk fuel : Nat) : Int × Nat :=
  match fuel with
  | 0 => (-1, pos)
  | fuel + 1 =>
    let read := freadCount len pos BUFF_SIZ
    if read = 0 then (-1, pos)
    else
      -- the fread in the while condition fills [32, 32+read) BEFORE the
      -- overlap memmove runs
      let buf1 := freadIntoBuf buf s LONGEST_MAGIC_STRING pos read
      let buf2 := if chunk = 0 then buf1 else memmoveOverlap buf1
      let mStart := if chunk = 0 then LONGEST_MAGIC_STRING else 0
      match scanChunk buf2 seq mStart (LONGEST_MAGIC_STRING + read - mStart) with
      | some m =>
        -- long pos = offset + i + chunk_count * BUFF_SIZ; fseek(fil, pos); return pos;
        let p : Int := offset + ((m : Int) - (LONGEST_MAGIC_STRING : Int)) +
          (chunk : Int) * (BUFF_SIZ : Int)
        (p, fseekPos (pos + read) p)
      | none => barmaid_find_seq_loop s len seq offset buf2 (pos + read) (chunk + 1) fuel

/-- `barmaid_find_seq(fil, offset, seq, seq_len)`.  `junk` is the
indeterminate initial content of the stack buffer `search_buff` (also read
when a candidate window extends past the buffer); `pos0` is the stream
position on entry (used only when `offset < 0`, in which case the C code
skips the `fseek`).  Returns the result and final stream position. -/
def barmaid_find_seq (s : Nat → Nat) (len : Nat) (junk : Nat → Nat)
    (pos0 : Nat) (offset : Int) (seq : List Nat) : Int × Nat :=
  let pos := fseekPos pos0 offset
  barmaid_find_seq_loop s len seq offset (fun k => byteAt junk k) pos 0 (len + 2)

/-- The pattern `seq` genuinely occurs in the stream at offset `p` (all of it
before end of stream). -/
def occursAt (s : Nat → Nat) (len : Nat) (seq : List Nat) (p : Nat) : Bool :=
  decide (p + seq.length ≤ len) && memcmpBufSeq (fun k => byteAt s k) p seq

/-- The `while(1)` loop of `barmaid_skip_padding`.  `buf` is the current
content of the local `uint8_t buff[4]` (initially indeterminate); a partial
`fread` overwrites only the delivered bytes, the tail keeps its old value.
Returns the C `long` result and the final stream position (the code seeks
back to `cur_pos` on both exits). -/
def barmaid_skip_padding_loop (s : Nat → Nat) (len : Nat) (buf : Nat → Nat)
    (pos fuel : Nat) : Int × Nat :=
  match fuel with
  | 0 => (-1, pos)
  | fuel + 1 =>
    let r := freadCount len pos 4
    if r = 0 then (-1, pos)
    else
      let buf' := fun k => if k < r then byteAt s (pos + k) else buf k
      if buf' 0 ≠ 0 ∨ buf' 1 ≠ 0 ∨ buf' 2 ≠ 0 ∨ buf' 3 ≠ 0 then
        ((pos : Int), pos)
      else barmaid_skip_padding_loop s len buf' (pos + r) fuel

/-- `barmaid_skip_padding(fil, offset)`.  `junk` is the indeterminate initial
content of `buff`; `pos0` the stream position on entry (used only when
`offset < 0`, where the C code skips the `fseek`; for `offset ≥ 0` the
`fseek` on a regular file always succeeds, so the `-2` branch is dead). -/
def barmaid_skip_padding (s : Nat → Nat) (len : Nat) (junk : Nat → Nat)
    (pos0 : Nat) (offset : Int) : Int × Nat :=
  barmaid_skip_padding_loop s len (fun k => byteAt junk k)
    (fseekPos pos0 offset) (len + 2)

/-- `barmaid_is_btw(fil)`: reads `sizeof(barmaid_btw_mseq_sof) = 26` bytes
from the CURRENT position (no seek!) and compares them with the signature.
On a short read the undelivered tail of `buff` is the indeterminate stack
content `junk`.  Returns the result and the new stream position. -/
def barmaid_is_btw (s : Nat → Nat) (len : Nat) (junk : Nat → Nat)
    (pos0 : Nat) : Bool × Nat :=
  let r := freadCount len pos0 26
  let buf : Nat → Nat := fun k =>
    if k < r then byteAt s (pos0 + k) else byteAt junk k
  ((r != 0) && memcmpBufSeq buf 0 barmaid_btw_mseq_sof, pos0 + r)

/-- One step `blobsize <<= 8; blobsize |= b;` of the little-endian decode in
`barmaid_parse_btw` (`blobsize` is a `uint32_t`). -/
def decodeStep (blobsize b : Nat) : Nat := (blobsize * 256 % 2 ^ 32) ||| b

/-- The decode loop `for(j = 3; j >= 0; j--) { blobsize <<= 8; blobsize |= buff[j]; }`.
`blobsize0` is the value `blobsize` carries over from the previous iteration
(it is declared once, outside the image loop). -/
def decodeLE (blobsize0 : Nat) (buf : Nat → Nat) : Nat :=
  decodeStep (decodeStep (decodeStep (decodeStep blobsize0 (buf 3)) (buf 2)) (buf 1)) (buf 0)

/-- The result struct `blobs` of barmaid.c.  The two-element C arrays
`png_start[2]` / `png_end[2]` are flattened into indexed fields. -/
structure Blobs where
  success : Bool
  prefix_end : Int
  png_start0 : Int
  png_start1 : Int
  png_end0 : Int
  png_end1 : Int
  container_zlib : Bool
  container_start : Int
  container_end : Int
deriving DecidableEq

/-- `blobs b = {b.success = false, -1, {-1, -1}, {-1, -1}, false, -1, -1};` -/
def blobsInit : Blobs :=
  { success := false, prefix_end := -1, png_start0 := -1, png_start1 := -1,
    png_end0 := -1, png_end1 := -1, container_zlib := false,
    container_start := -1, container_end := -1 }

/-- The loop-carried state of the image-section loop in `barmaid_parse_btw`:
stream position, `start_of_blobsize`, the carried `uint32_t blobsize`, and
the content of the shared local `uint8_t buff[4]`. -/
structure ImgState where
  pos : Nat
  sob : Int
  blobsize : Nat
  bufP : Nat → Nat

/-- Result of one iteration of the image-section loop. -/
inductive ImgResult where
  | fail (pos : Nat)
  | ok (png_start png_end : Int) (st : ImgState)

/-- One iteration `i` of `for(int i = 0; i < 2; i++)` in `barmaid_parse_btw`:
`fseek(fil, start_of_blobsize, SEEK_SET)` (result ignored), read 4 bytes
(failing only on a ZERO return, so a partial read proceeds with stale tail
bytes), little-endian decode, record the image range, and advance
`start_of_blobsize` via `barmaid_skip_padding` from the range's end.
`jB` is the indeterminate stack buffer of that `barmaid_skip_padding` call. -/
def parseImageStep (s : Nat → Nat) (len : Nat) (jB : Nat → Nat)
    (st : ImgState) : ImgResult :=
  let pos1 := fseekPos st.pos st.sob
  let r := freadCount len pos1 4
  if r = 0 then .fail pos1
  else
    let buf' := fun k => if k < r then byteAt s (pos1 + k) else st.bufP k
    let bs := decodeLE st.blobsize buf'
    let ps : Int := st.sob + 4
    let pe : Int := ps + (bs : Int)
    match barmaid_skip_padding s len jB (pos1 + r) pe with
    | (sob', pos') => .ok ps pe ⟨pos', sob', bs, buf'⟩

/-- Result of the container-detection step. -/
inductive ContResult where
  | fail (pos : Nat)
  | ok (zlib : Bool) (cstart : Int) (pos : Nat)
deriving DecidableEq

/-- Container detection in `barmaid_parse_btw`: `b.container_start` is first
set to `start_of_blobsize`; then 2 bytes are read from the current position
(which must deliver exactly 2), and on a `memcmp` match with the zlib marker
`container_start` advances past it and `container_zlib` is set. -/
def containerStep (s : Nat → Nat) (len : Nat) (bufP : Nat → Nat)
    (pos : Nat) (sob : Int) : ContResult :=
  let r := freadCount len pos 2
  let buf' := fun k => if k < r then byteAt s (pos + k) else bufP k
  if r ≠ 2 then .fail (pos + r)
  else if memcmpBufSeq buf' 0 barmaid_btw_zlib then
    .ok true (sob + 2) (pos + r)
  else .ok false sob (pos + r)

/-- The tail of `barmaid_parse_btw` from `// Start of container` on: container
detection, then `fileno`/`fstat` (modelled as succeeding with
`st.st_size = len`), then the final positivity check and `b.success = true`.
`b3` is the struct accumulated so far, `st2` the state after the second
image iteration. -/
def barmaid_parse_container (s : Nat → Nat) (len : Nat) (b3 : Blobs)
    (st2 : ImgState) : Blobs × Nat :=
  match containerStep s len st2.bufP st2.pos st2.sob with
  | .fail p => ({ b3 with container_start := st2.sob }, p)
  | .ok zl cs p =>
    let b4 :=
      { b3 with
        container_start := cs
        container_zlib := zl
        container_end := (len : Int) }
    if b4.container_start ≤ 0 ∨ b4.container_end ≤ 0 then (b4, p)
    else ({ b4 with success := true }, p)

/-- The two iterations of `for(int i = 0; i < 2; i++)` of `barmaid_parse_btw`
followed by the container stage.  `b1` is the struct accumulated so far
(signature checked, `prefix_end` set), `st0` the state entering the loop. -/
def barmaid_parse_images (s : Nat → Nat) (len : Nat) (jB2 jB3 : Nat → Nat)
    (b1 : Blobs) (st0 : ImgState) : Blobs × Nat :=
  match parseImageStep s len jB2 st0 with
  | .fail p => (b1, p)
  | .ok ps0 pe0 st1 =>
    let b2 := { b1 with png_start0 := ps0, png_end0 := pe0 }
    match parseImageStep s len jB3 st1 with
    | .fail p => (b2, p)
    | .ok ps1 pe1 st2 =>
      barmaid_parse_container s len
        { b2 with png_start1 := ps1, png_end1 := pe1 } st2

/-- `barmaid_parse_btw(fil)`.  `jI, jF, jB1, jB2, jB3, jP` are the
indeterminate initial contents of, respectively: the buffer of
`barmaid_is_btw`, of `barmaid_find_seq`, of the three
`barmaid_skip_padding` calls, and of the parser's own `uint8_t buff[4]`.
`pos0` is the stream position on entry.  On every early `return b` the
partially filled struct accumulated so far is returned, with
`success = false`. -/
def barmaid_parse_btw (s : Nat → Nat) (len : Nat)
    (jI jF jB1 jB2 jB3 jP : Nat → Nat) (pos0 : Nat) : Blobs × Nat :=
  let b0 := blobsInit
  let ib := barmaid_is_btw s len jI pos0
  if !ib.1 then (b0, ib.2)
  else
    let fr := barmaid_find_seq s len jF ib.2 26 barmaid_btw_end_of_meta
    if fr.1 < 0 then (b0, fr.2)
    else
      let sk1 := barmaid_skip_padding s len jB1 fr.2 (fr.1 + 4)
      barmaid_parse_images s len jB2 jB3 { b0 with prefix_end := sk1.1 }
        ⟨sk1.2, sk1.1, 0, fun k => byteAt jP k⟩

/-- `barmaid_heuristic_png(fil)`: locate two PNG images by their start/end
markers alone.  `jF1..jF4` are the indeterminate stack buffers of the four
`barmaid_find_seq` calls; `pos0` is the stream position on entry.  Each
early `return b` carries the fields assigned so far, with `success`
still false. -/
def barmaid_heuristic_png (s : Nat → Nat) (len : Nat)
    (jF1 jF2 jF3 jF4 : Nat → Nat) (pos0 : Nat) : Blobs × Nat :=
  let b0 := blobsInit
  let f1 := barmaid_find_seq s len jF1 pos0 0 barmaid_start_mseq_png
  if f1.1 < 0 then ({ b0 with png_start0 := f1.1 }, f1.2)
  else
    let f2 := barmaid_find_seq s len jF2 f1.2 f1.1 barmaid_end_mseq_png
    if f2.1 < 0 then
      ({ b0 with
         png_start0 := f1.1
         png_end0 := f2.1 }, f2.2)
    else
      let f3 := barmaid_find_seq s len jF3 f2.2 (f2.1 + 12) barmaid_start_mseq_png
      if f3.1 < 0 then
        ({ b0 with
           png_start0 := f1.1
           png_end0 := f2.1 + 12
           png_start1 := f3.1 }, f3.2)
      else
        let f4 := barmaid_find_seq s len jF4 f3.2 f3.1 barmaid_end_mseq_png
        if f4.1 < 0 then
          ({ b0 with
             png_start0 := f1.1
             png_end0 := f2.1 + 12
             png_start1 := f3.1
             png_end1 := f4.1 }, f4.2)
        else
          ({ b0 with
             success := true
             png_start0 := f1.1
             png_end0 := f2.1 + 12
             png_start1 := f3.1
             png_end1 := f4.1 + 12 }, f4.2)

/-- The copy loop of `barmaid_dump_file`: `for(size_t i = 0; i < size;
i += sizeof(buff))` copying `min(size - i, BUFF_SIZ)` bytes per round.
`out` is the list of bytes written to the destination so far; `fwrite` to
the sink always succeeds.  Returns (result, bytes written, source pos). -/
def barmaid_dump_loop (s : Nat → Nat) (len : Nat) (pos size i : Nat)
    (out : List Nat) (fuel : Nat) : Bool × List Nat × Nat :=
  match fuel with
  | 0 => (false, out, pos)
  | fuel + 1 =>
    if i < size then
      let chunk := min (size - i) BUFF_SIZ
      let r := freadCount len pos chunk
      if r ≠ chunk then (false, out, pos + r)
      else
        barmaid_dump_loop s len (pos + r) size (i + chunk)
          (out ++ (List.range chunk).map (fun k => byteAt s (pos + k))) fuel
    else (true, out, pos)

/-- `barmaid_dump_file(infile, start, end, outfile)`: `size_t size = end -
start` (a 64-bit `size_t` difference of two `long`s), seek the source to
`start` and the (fresh) destination to 0, then copy chunkwise.  Returns the
`bool` result, the destination content and the final source position. -/
def barmaid_dump_file (s : Nat → Nat) (len : Nat) (start stop : Int) :
    Bool × List Nat × Nat :=
  let size : Nat := ((stop - start).emod (2 ^ 64)).toNat
  let pos := fseekPos 0 start
  barmaid_dump_loop s len pos size 0 [] (size / BUFF_SIZ + 2)

/-! ### Concrete streams used in counterexamples and witnesses -/

/-- All-zero indeterminate memory (one concrete choice of stack content). -/
def zeroJunk : Nat → Nat := fun _ => 0

/-- Stream of length 16384 (two full 8 KiB chunks), all zero except the
4-byte pattern `01 02 03 04` placed at offsets 8190..8193, straddling the
first chunk boundary. -/
def cs1 : Nat → Nat := fun k =>
  if k = 8190 then 1 else if k = 8191 then 2 else
  if k = 8192 then 3 else if k = 8193 then 4 else 0

def cseq1 : List Nat := [1, 2, 3, 4]

/-- Stream of length 8202: byte `AA` at offset 8201 (the last byte), bytes
`BB CC DD` at offsets 10..12, all else zero.  The pattern `AA BB CC DD`
does not occur in it. -/
def cs2 : Nat → Nat := fun k =>
  if k = 10 then 187 else if k = 11 then 204 else
  if k = 12 then 221 else if k = 8201 then 170 else 0

def cseq2 : List Nat := [170, 187, 204, 221]

/-- Stream `00 00 00 00 42` of length 5. -/
def cs6 : Nat → Nat := fun k => if k = 4 then 0x42 else 0

/-- A well-formed 46-byte BTW stream: signature, end-of-metadata marker, a
2-byte image with its length field, zero padding nowhere, a second 2-byte
image, and a zlib-marked container `AA BB`. -/
def cs9list : List Nat :=
  barmaid_btw_mseq_sof ++ barmaid_btw_end_of_meta ++
  [2, 0, 0, 0, 0x89, 0x50, 2, 0, 0, 0, 0x89, 0x50, 0, 1, 0xAA, 0xBB]

def cs9 : Nat → Nat := fun k => cs9list.getD k 0

/-- All-one indeterminate memory (a second concrete choice of stack content,
differing from `zeroJunk`). -/
def oneJunk : Nat → Nat := fun _ => 1

/-- A 42-byte BTW stream: signature, end-of-metadata marker, two 1-byte
images, and then only 2 padding bytes before end of stream, so the final
`barmaid_skip_padding` performs a partial 2-byte read whose stale tail
bytes come from the indeterminate stack. -/
def cs9blist : List Nat :=
  barmaid_btw_mseq_sof ++ barmaid_btw_end_of_meta ++
  [1, 0, 0, 0, 0x41, 1, 0, 0, 0, 0x42, 0, 0]

def cs9b : Nat → Nat := fun k => cs9blist.getD k 0

/-- A 56-byte stream consisting of two PNG start/end marker pairs. -/
def cs10list : List Nat :=
  barmaid_start_mseq_png ++ barmaid_end_mseq_png ++
  barmaid_start_mseq_png ++ barmaid_end_mseq_png

def cs10 : Nat → Nat := fun k => cs10list.getD k 0

/-! ### General lemmas about the scan and skip loops -/

theorem scanChunk_eq_none (buf : Nat → Nat) (seq : List Nat) :
    ∀ count m, (∀ j, m ≤ j → j < m + count → memcmpBufSeq buf j seq = false) →
    scanChunk buf seq m count = none := by
  intro count
  induction count with
  | zero => intro m _; rfl
  | succ c ih =>
    intro m h
    have h0 : memcmpBufSeq buf m seq = false := h m (Nat.le_refl m) (by omega)
    simp only [scanChunk, h0, Bool.false_eq_true, if_false]
    exact ih (m + 1) (fun j hj1 hj2 => h j (by omega) (by omega))

theorem scanChunk_eq_some (buf : Nat → Nat) (seq : List Nat) :
    ∀ count m j, m ≤ j → j < m + count →
    memcmpBufSeq buf j seq = true →
    (∀ i, m ≤ i → i < j → memcmpBufSeq buf i seq = false) →
    scanChunk buf seq m count = some j := by
  intro count
  induction count with
  | zero => intro m j h1 h2 _ _; omega
  | succ c ih =>
    intro m j h1 h2 hmatch hpre
    by_cases hm : m = j
    · subst hm
      simp only [scanChunk, hmatch, if_true]
    · have h0 : memcmpBufSeq buf m seq = false :=
        hpre m (Nat.le_refl m) (by omega)
      simp only [scanChunk, h0, Bool.false_eq_true, if_false]
      exact ih (m + 1) j (by omega) (by omega) hmatch
        (fun i hi1 hi2 => hpre i (by omega) hi2)

theorem scanChunk_some_bounds (buf : Nat → Nat) (seq : List Nat) :
    ∀ count m j, scanChunk buf seq m count = some j → m ≤ j ∧ j < m + count := by
  intro count
  induction count with
  | zero => intro m j h; simp [scanChunk] at h
  | succ c ih =>
    intro m j h
    simp only [scanChunk] at h
    by_cases hc : memcmpBufSeq buf m seq = true
    · simp only [hc, if_true, Option.some.injEq] at h
      omega
    · simp only [hc, if_false] at h
      have := ih (m + 1) j h
      omega

theorem skip_loop_spec (s : Nat → Nat) (len : Nat) :
    ∀ fuel buf pos, len - pos < fuel →
    (∃ p, barmaid_skip_padding_loop s len buf pos fuel = (-1, p) ∧
      len ≤ p ∧ pos ≤ p) ∨
    (∃ c : Nat, barmaid_skip_padding_loop s len buf pos fuel = ((c : Int), c) ∧
      pos ≤ c ∧ c < len) := by
  intro fuel
  induction fuel with
  | zero => intro buf pos h; omega
  | succ f ih =>
    intro buf pos h
    by_cases hr : freadCount len pos 4 = 0
    · left
      refine ⟨pos, ?_, ?_, Nat.le_refl pos⟩
      · simp only [barmaid_skip_padding_loop, hr, if_true]
      · simp only [freadCount] at hr; omega
    · have hlt : pos < len := by
        simp only [freadCount] at hr; omega
      simp only [barmaid_skip_padding_loop, hr, if_false]
      set buf' := fun k =>
        if k < freadCount len pos 4 then byteAt s (pos + k) else buf k with hbuf
      by_cases hz : buf' 0 ≠ 0 ∨ buf' 1 ≠ 0 ∨ buf' 2 ≠ 0 ∨ buf' 3 ≠ 0
      · right
        refine ⟨pos, ?_, Nat.le_refl pos, hlt⟩
        simp only [hz, if_true]
      · simp only [hz, if_false]
        have hrge : 1 ≤ freadCount len pos 4 := by
          simp only [freadCount] at hr ⊢; omega
        have := ih buf' (pos + freadCount len pos 4) (by omega)
        rcases this with ⟨p, he, h1, h2⟩ | ⟨c, he, h1, h2⟩
        · exact Or.inl ⟨p, he, h1, by omega⟩
        · exact Or.inr ⟨c, he, by omega, h2⟩

theorem skip_padding_spec (s : Nat → Nat) (len : Nat) (junk : Nat → Nat)
    (pos0 : Nat) (off : Int) :
    (∃ p, barmaid_skip_padding s len junk pos0 off = (-1, p) ∧ len ≤ p) ∨
    (∃ c : Nat, barmaid_skip_padding s len junk pos0 off = ((c : Int), c) ∧
      fseekPos pos0 off ≤ c ∧ c < len) := by
  have h := skip_loop_spec s len (len + 2) (fun k => byteAt junk k)
    (fseekPos pos0 off) (by omega)
  rcases h with ⟨p, he, h1, _⟩ | ⟨c, he, h1, h2⟩
  · exact Or.inl ⟨p, he, h1⟩
  · exact Or.inr ⟨c, he, h1, h2⟩

theorem find_loop_lb (s : Nat → Nat) (len : Nat) (seq : List Nat) (off : Int) :
    ∀ fuel buf pos chunk,
    (barmaid_find_seq_loop s len seq off buf pos chunk fuel).1 = -1 ∨
    off ≤ (barmaid_find_seq_loop s len seq off buf pos chunk fuel).1 := by
  intro fuel
  induction fuel with
  | zero => intro buf pos chunk; left; rfl
  | succ f ih =>
    intro buf pos chunk
    by_cases hr : freadCount len pos BUFF_SIZ = 0
    · left
      simp only [barmaid_find_seq_loop, hr, if_true]
    · simp only [barmaid_find_seq_loop, hr, if_false]
      set buf1 := freadIntoBuf buf s LONGEST_MAGIC_STRING pos
        (freadCount len pos BUFF_SIZ) with hbuf1
      set buf2 := if chunk = 0 then buf1 else memmoveOverlap buf1 with hbuf2
      set mStart := if chunk = 0 then LONGEST_MAGIC_STRING else 0 with hmS
      rcases hscan : scanChunk buf2 seq mStart
          (LONGEST_MAGIC_STRING + freadCount len pos BUFF_SIZ - mStart) with _ | m
      · simp only [hscan]
        exact ih buf2 (pos + freadCount len pos BUFF_SIZ) (chunk + 1)
      · simp only [hscan]
        right
        have hb := scanChunk_some_bounds buf2 seq _ _ _ hscan
        by_cases hc : chunk = 0
        · have hm : LONGEST_MAGIC_STRING ≤ m := by
            have := hb.1
            simp only [hmS, hc, if_true] at this
            exact this
          simp only [LONGEST_MAGIC_STRING] at hm
          simp only [LONGEST_MAGIC_STRING, BUFF_SIZ]
          omega
        · have hch : 1 ≤ chunk := Nat.one_le_iff_ne_zero.mpr hc
          simp only [LONGEST_MAGIC_STRING, BUFF_SIZ]
          have : (8192 : Int) ≤ (chunk : Int) * 8192 := by
            have : (1 : Int) ≤ (chunk : Int) := by exact_mod_cast hch
            nlinarith
          omega

theorem find_seq_lb (s : Nat → Nat) (len : Nat) (junk : Nat → Nat)
    (pos0 : Nat) (off : Int) (seq : List Nat) :
    (barmaid_find_seq s len junk pos0 off seq).1 = -1 ∨
    off ≤ (barmaid_find_seq s len junk pos0 off seq).1 :=
  find_loop_lb s len seq off (len + 2) (fun k => byteAt junk k)
    (fseekPos pos0 off) 0

theorem find_seq_past_end (s : Nat → Nat) (len : Nat) (junk : Nat → Nat)
    (pos0 : Nat) (off : Int) (seq : List Nat)
    (h0 : 0 ≤ off) (h : len ≤ off.toNat) :
    barmaid_find_seq s len junk pos0 off seq = (-1, off.toNat) := by
  have hp : fseekPos pos0 off = off.toNat := by
    simp only [fseekPos, h0, if_true]
  have hr : freadCount len off.toNat BUFF_SIZ = 0 := by
    simp only [freadCount]
    omega
  show barmaid_find_seq_loop s len seq off (fun k => byteAt junk k)
    (fseekPos pos0 off) 0 (len + 2) = (-1, off.toNat)
  rw [hp, show len + 2 = (len + 1) + 1 from rfl]
  simp only [barmaid_find_seq_loop, hr, if_true]

theorem lor_eq_add_of_dvd (x b : Nat) (hx : 256 ∣ x) (hb : b < 256) :
    x ||| b = x + b := by
  obtain ⟨y, rfl⟩ := hx
  have hb' : b < 2 ^ 8 := by norm_num; exact hb
  have h := @Nat.mul_add_lt_is_or 8 b hb' y
  norm_num at h
  omega

theorem decodeStep_eq (bs b : Nat) (hb : b < 256) :
    decodeStep bs b = bs * 256 % 2 ^ 32 + b := by
  have h1 : (256 : Nat) ∣ bs * 256 := Dvd.intro_left bs rfl
  have h2 : (256 : Nat) ∣ 2 ^ 32 := by norm_num
  have hdvd : 256 ∣ bs * 256 % 2 ^ 32 := (Nat.dvd_mod_iff h2).mpr h1
  exact lor_eq_add_of_dvd _ _ hdvd hb

theorem decodeLE_eq (bs0 : Nat) (buf : Nat → Nat)
    (h0 : buf 0 < 256) (h1 : buf 1 < 256) (h2 : buf 2 < 256)
    (h3 : buf 3 < 256) :
    decodeLE bs0 buf = buf 0 + 256 * buf 1 + 65536 * buf 2 + 16777216 * buf 3 := by
  simp only [decodeLE, decodeStep_eq _ _ h3, decodeStep_eq _ _ h2,
    decodeStep_eq _ _ h1, decodeStep_eq _ _ h0,
    show (2 : Nat) ^ 32 = 4294967296 from by norm_num]
  omega

theorem byteAt_lt (f : Nat → Nat) (k : Nat) : byteAt f k < 256 :=
  Nat.mod_lt _ (by norm_num)

theorem skip_padding_spec2 (s : Nat → Nat) (len : Nat) (junk : Nat → Nat)
    (pos0 : Nat) (off : Int) :
    ((barmaid_skip_padding s len junk pos0 off).1 = -1 ∧
      len ≤ (barmaid_skip_padding s len junk pos0 off).2) ∨
    (∃ c : Nat, (barmaid_skip_padding s len junk pos0 off).1 = (c : Int) ∧
      (barmaid_skip_padding s len junk pos0 off).2 = c ∧
      fseekPos pos0 off ≤ c ∧ c < len) := by
  rcases skip_padding_spec s len junk pos0 off with ⟨p, he, h1⟩ | ⟨c, he, h1, h2⟩
  · left; rw [he]; exact ⟨rfl, h1⟩
  · right; exact ⟨c, by rw [he], by rw [he], h1, h2⟩

theorem parseImageStep_fail_bad (s : Nat → Nat) (len : Nat) (jB : Nat → Nat)
    (st : ImgState) (hneg : st.sob < 0) (hpos : len ≤ st.pos) :
    ∃ q, parseImageStep s len jB st = .fail q := by
  have h1 : fseekPos st.pos st.sob = st.pos := by
    simp only [fseekPos, if_neg (by omega : ¬(0 ≤ st.sob))]
  have h2 : freadCount len st.pos 4 = 0 := by
    simp only [freadCount]; omega
  exact ⟨st.pos, by simp [parseImageStep, h1, h2]⟩

theorem parseImageStep_ok_spec (s : Nat → Nat) (len : Nat) (jB : Nat → Nat)
    (st : ImgState) (c : Nat) (hc : c < len)
    (hsob : st.sob = (c : Int)) (hpos : st.pos = c) :
    ∃ pe st', parseImageStep s len jB st = .ok ((c : Int) + 4) pe st' ∧
      ((c : Int) + 4) ≤ pe ∧
      ((st'.sob < 0 ∧ len ≤ st'.pos) ∨
       (∃ c2 : Nat, st'.sob = (c2 : Int) ∧ st'.pos = c2 ∧
         pe ≤ (c2 : Int) ∧ c2 < len)) := by
  have h1 : fseekPos st.pos ((c : Nat) : Int) = c := by
    simp only [fseekPos, if_pos (by omega : (0:Int) ≤ ((c:Nat):Int)), Int.toNat_ofNat]
  have hr : ¬(freadCount len c 4 = 0) := by
    simp only [freadCount]; omega
  simp only [parseImageStep, hsob, h1]
  rw [if_neg hr]
  refine ⟨_, _, rfl, ?_, ?_⟩
  · have : (0:Int) ≤ ((decodeLE st.blobsize fun k =>
      if k < freadCount len c 4 then byteAt s (c + k) else st.bufP k : Nat) : Int) := by
      positivity
    omega
  · simp only
    rcases skip_padding_spec2 s len jB (c + freadCount len c 4)
        ((c : Int) + 4 + ((decodeLE st.blobsize fun k =>
          if k < freadCount len c 4 then byteAt s (c + k) else st.bufP k : Nat) : Int))
      with ⟨ha, hb⟩ | ⟨c2, ha, hb, hc1, hc2⟩
    · left
      exact ⟨by rw [ha]; omega, hb⟩
    · right
      refine ⟨c2, ha, hb, ?_, hc2⟩
      have hpe0 : (0:Int) ≤ (c : Int) + 4 + ((decodeLE st.blobsize fun k =>
          if k < freadCount len c 4 then byteAt s (c + k) else st.bufP k : Nat) : Int) := by
        positivity
      simp only [fseekPos, if_pos hpe0] at hc1
      omega

theorem containerStep_fail_bad (s : Nat → Nat) (len : Nat) (bufP : Nat → Nat)
    (pos : Nat) (sob : Int) (hpos : len ≤ pos) :
    ∃ q, containerStep s len bufP pos sob = .fail q := by
  have hr : freadCount len pos 2 = 0 := by simp only [freadCount]; omega
  refine ⟨pos + 0, ?_⟩
  simp only [containerStep, hr]
  rw [if_pos (by norm_num)]

theorem containerStep_ok_spec (s : Nat → Nat) (len : Nat) (bufP : Nat → Nat)
    (c3 : Nat) (hc : c3 < len) :
    (∃ q, containerStep s len bufP c3 ((c3 : Nat) : Int) = .fail q) ∨
    (∃ zl cs p, containerStep s len bufP c3 ((c3 : Nat) : Int) = .ok zl cs p ∧
      ((c3 : Int)) ≤ cs ∧ cs ≤ (len : Int)) := by
  by_cases h2 : c3 + 2 ≤ len
  · right
    have hr : freadCount len c3 2 = 2 := by simp only [freadCount]; omega
    simp only [containerStep, hr]
    rw [if_neg (by norm_num)]
    by_cases hm : memcmpBufSeq (fun k => if k < 2 then byteAt s (c3 + k) else bufP k) 0
        barmaid_btw_zlib = true
    · rw [if_pos hm]
      refine ⟨true, _, _, rfl, by omega, by omega⟩
    · rw [if_neg hm]
      refine ⟨false, _, _, rfl, by omega, by omega⟩
  · left
    have hr : freadCount len c3 2 ≠ 2 := by simp only [freadCount]; omega
    simp only [containerStep]
    rw [if_pos hr]
    exact ⟨_, rfl⟩

theorem parse_container_spec (s : Nat → Nat) (len : Nat) (b3 : Blobs)
    (st2 : ImgState) (hb3 : b3.success = false)
    (hinv : ∃ c3 : Nat, st2.sob = (c3 : Int) ∧ st2.pos = c3 ∧ c3 < len)
    (h : (barmaid_parse_container s len b3 st2).1.success = true) :
    ∃ zl cs, (barmaid_parse_container s len b3 st2).1 =
      { b3 with
        container_start := cs
        container_zlib := zl
        container_end := (len : Int)
        success := true } ∧
      st2.sob ≤ cs ∧ cs ≤ (len : Int) ∧ 0 < cs := by
  obtain ⟨c3, hsob, hpos, hlt⟩ := hinv
  rcases containerStep_ok_spec s len st2.bufP c3 hlt with
    ⟨q, hq⟩ | ⟨zl, cs, p, hok, h1, h2⟩
  · simp only [barmaid_parse_container, hsob, hpos, hq] at h
    simp [hb3] at h
  · simp only [barmaid_parse_container, hsob, hpos, hok] at h
    by_cases hfin : cs ≤ 0 ∨ ((len : Nat) : Int) ≤ 0
    · rw [if_pos hfin] at h
      simp [hb3] at h
    · rw [if_neg hfin] at h
      refine ⟨zl, cs, ?_, ?_, h2, by omega⟩
      · simp only [barmaid_parse_container, hsob, hpos, hok]
        rw [if_neg hfin]
      · rw [hsob]
        exact h1

theorem parse_images_spec (s : Nat → Nat) (len : Nat) (jB2 jB3 : Nat → Nat)
    (b1 : Blobs) (st0 : ImgState) (hb1 : b1.success = false)
    (hinv : ∃ c1 : Nat, st0.sob = (c1 : Int) ∧ st0.pos = c1 ∧ c1 < len)
    (h : (barmaid_parse_images s len jB2 jB3 b1 st0).1.success = true) :
    ∃ ps0 pe0 ps1 pe1 zl cs,
      (barmaid_parse_images s len jB2 jB3 b1 st0).1 =
        { b1 with
          png_start0 := ps0
          png_end0 := pe0
          png_start1 := ps1
          png_end1 := pe1
          container_start := cs
          container_zlib := zl
          container_end := (len : Int)
          success := true } ∧
      ps0 = st0.sob + 4 ∧ ps0 ≤ pe0 ∧ pe0 ≤ ps1 ∧ ps1 ≤ pe1 ∧
      pe1 ≤ cs ∧ cs ≤ (len : Int) ∧ 0 < cs := by
  obtain ⟨c1, hsob, hpos, hlt⟩ := hinv
  obtain ⟨pe0, st1, hstep1, hge1, hst1⟩ :=
    parseImageStep_ok_spec s len jB2 st0 c1 hlt hsob hpos
  rcases hst1 with ⟨hneg1, hpos1⟩ | ⟨c2, hsob2, hpos2, hle2, hlt2⟩
  · obtain ⟨q2, hq2⟩ := parseImageStep_fail_bad s len jB3 st1 hneg1 hpos1
    simp only [barmaid_parse_images, hstep1, hq2] at h
    simp [hb1] at h
  · obtain ⟨pe1, st2, hstep2, hge2, hst2⟩ :=
      parseImageStep_ok_spec s len jB3 st1 c2 hlt2 hsob2 hpos2
    rcases hst2 with ⟨hneg2, hpos2'⟩ | ⟨c3, hsob3, hpos3, hle3, hlt3⟩
    · obtain ⟨q3, hq3⟩ := containerStep_fail_bad s len st2.bufP st2.pos st2.sob hpos2'
      simp only [barmaid_parse_images, hstep1, hstep2,
        barmaid_parse_container, hq3] at h
      simp [hb1] at h
    · simp only [barmaid_parse_images, hstep1, hstep2] at h
      obtain ⟨zl, cs, hceq, hc1, hc2, hc3⟩ :=
        parse_container_spec s len _ st2 (by simp [hb1])
          ⟨c3, hsob3, hpos3, hlt3⟩ h
      refine ⟨(c1 : Int) + 4, pe0, (c2 : Int) + 4, pe1, zl, cs, ?_, ?_, hge1,
        by omega, hge2, ?_, hc2, hc3⟩
      · simp only [barmaid_parse_images, hstep1, hstep2]
        rw [hceq]
      · rw [hsob]
      · rw [hsob3] at hc1
        omega

/-- Claim C3: for every stream on which `barmaid_parse_btw` returns a layout
with `success = true`, the layout's offsets are non-negative and ordered
(`0 ≤ prefix_end ≤ png_start[0] ≤ png_end[0] ≤ png_start[1] ≤ png_end[1] ≤
container_start ≤ container_end`) and `container_end` equals the stream's
total byte length. -/
theorem claim_C3 (s : Nat → Nat) (len : Nat) (jI jF jB1 jB2 jB3 jP : Nat → Nat)
    (pos0 : Nat) (b : Blobs)
    (hb : b = (barmaid_parse_btw s len jI jF jB1 jB2 jB3 jP pos0).1)
    (h : b.success = true) :
    0 ≤ b.prefix_end ∧ b.prefix_end ≤ b.png_start0 ∧
    b.png_start0 ≤ b.png_end0 ∧ b.png_end0 ≤ b.png_start1 ∧
    b.png_start1 ≤ b.png_end1 ∧ b.png_end1 ≤ b.container_start ∧
    b.container_start ≤ b.container_end ∧ b.container_end = (len : Int) := by
  subst hb
  simp only [barmaid_parse_btw] at h ⊢
  cases hI : (barmaid_is_btw s len jI pos0).1 with
  | false =>
    simp only [hI] at h
    simp [blobsInit] at h
  | true =>
    simp only [hI, Bool.not_true, Bool.false_eq_true, if_false] at h ⊢
    rcases hF : barmaid_find_seq s len jF (barmaid_is_btw s len jI pos0).2 26
        barmaid_btw_end_of_meta with ⟨found, pos2⟩
    simp only [hF] at h ⊢
    by_cases hf : found < 0
    · simp only [if_pos hf] at h
      simp [blobsInit] at h
    · simp only [if_neg hf] at h ⊢
      rcases hS : barmaid_skip_padding s len jB1 pos2 (found + 4) with ⟨sob1, pos3⟩
      simp only [hS] at h ⊢
      have hspec := skip_padding_spec2 s len jB1 pos2 (found + 4)
      rw [hS] at hspec
      simp only at hspec
      rcases hspec with ⟨ha1, hb1'⟩ | ⟨c1, ha1, hb1', hge, hlt⟩
      · obtain ⟨q, hq⟩ := parseImageStep_fail_bad s len jB2
          ⟨pos3, sob1, 0, fun k => byteAt jP k⟩ (by simp [ha1]) (by simpa using hb1')
        simp only [barmaid_parse_images, hq] at h
        simp [blobsInit] at h
      · obtain ⟨ps0, pe0, ps1, pe1, zl, cs, heq, hps0, h1, h2, h3, h4, h5, h6⟩ :=
          parse_images_spec s len jB2 jB3 { blobsInit with prefix_end := sob1 }
            ⟨pos3, sob1, 0, fun k => byteAt jP k⟩ (by simp [blobsInit])
            ⟨c1, by simpa using ha1, by simpa using hb1', hlt⟩ h
        rw [heq]
        simp only at hps0
        simp only [blobsInit]
        refine ⟨?_, ?_, ?_, ?_, ?_, ?_, ?_, ?_⟩ <;> first | omega | trivial

theorem claim_C3_witness :
    ((barmaid_parse_btw cs9 46 zeroJunk zeroJunk zeroJunk zeroJunk zeroJunk
        zeroJunk 0).1).success = true ∧
    (0 ≤ (barmaid_parse_btw cs9 46 zeroJunk zeroJunk zeroJunk zeroJunk zeroJunk
        zeroJunk 0).1.prefix_end ∧
     (barmaid_parse_btw cs9 46 zeroJunk zeroJunk zeroJunk zeroJunk zeroJunk
        zeroJunk 0).1.prefix_end ≤
       (barmaid_parse_btw cs9 46 zeroJunk zeroJunk zeroJunk zeroJunk zeroJunk
        zeroJunk 0).1.png_start0 ∧
     (barmaid_parse_btw cs9 46 zeroJunk zeroJunk zeroJunk zeroJunk zeroJunk
        zeroJunk 0).1.png_start0 ≤
       (barmaid_parse_btw cs9 46 zeroJunk zeroJunk zeroJunk zeroJunk zeroJunk
        zeroJunk 0).1.png_end0 ∧
     (barmaid_parse_btw cs9 46 zeroJunk zeroJunk zeroJunk zeroJunk zeroJunk
        zeroJunk 0).1.png_end0 ≤
       (barmaid_parse_btw cs9 46 zeroJunk zeroJunk zeroJunk zeroJunk zeroJunk
        zeroJunk 0).1.png_start1 ∧
     (barmaid_parse_btw cs9 46 zeroJunk zeroJunk zeroJunk zeroJunk zeroJunk
        zeroJunk 0).1.png_start1 ≤
       (barmaid_parse_btw cs9 46 zeroJunk zeroJunk zeroJunk zeroJunk zeroJunk
        zeroJunk 0).1.png_end1 ∧
     (barmaid_parse_btw cs9 46 zeroJunk zeroJunk zeroJunk zeroJunk zeroJunk
        zeroJunk 0).1.png_end1 ≤
       (barmaid_parse_btw cs9 46 zeroJunk zeroJunk zeroJunk zeroJunk zeroJunk
        zeroJunk 0).1.container_start ∧
     (barmaid_parse_btw cs9 46 zeroJunk zeroJunk zeroJunk zeroJunk zeroJunk
        zeroJunk 0).1.container_start ≤
       (barmaid_parse_btw cs9 46 zeroJunk zeroJunk zeroJunk zeroJunk zeroJunk
        zeroJunk 0).1.container_end ∧
     (barmaid_parse_btw cs9 46 zeroJunk zeroJunk zeroJunk zeroJunk zeroJunk
        zeroJunk 0).1.container_end = ((46 : Nat) : Int)) :=
  ⟨by decide, claim_C3 cs9 46 zeroJunk zeroJunk zeroJunk zeroJunk zeroJunk
    zeroJunk 0 _ rfl (by decide)⟩

/-- Claim C4: in each image-section iteration of the layout parser, when the
4-byte read at the current position completes in full, the bytes decode as an
unsigned little-endian 32-bit length (byte 0 contributing the low 8 bits, so
`02 00 00 00` decodes to 2 and `00 01 00 00` decodes to 256) and the image's
range is `[position + 4, position + 4 + length)`. -/
theorem claim_C4 (s : Nat → Nat) (len : Nat) (jB : Nat → Nat) (st : ImgState)
    (h : freadCount len (fseekPos st.pos st.sob) 4 = 4) :
    (∃ st', parseImageStep s len jB st =
        .ok (st.sob + 4)
          (st.sob + 4 + ((byteAt s (fseekPos st.pos st.sob) +
            256 * byteAt s (fseekPos st.pos st.sob + 1) +
            65536 * byteAt s (fseekPos st.pos st.sob + 2) +
            16777216 * byteAt s (fseekPos st.pos st.sob + 3) : Nat) : Int)) st' ∧
        st'.blobsize = byteAt s (fseekPos st.pos st.sob) +
            256 * byteAt s (fseekPos st.pos st.sob + 1) +
            65536 * byteAt s (fseekPos st.pos st.sob + 2) +
            16777216 * byteAt s (fseekPos st.pos st.sob + 3)) ∧
    (∀ bs0, decodeLE bs0 (fun k => [2, 0, 0, 0].getD k 0) = 2) ∧
    (∀ bs0, decodeLE bs0 (fun k => [0, 1, 0, 0].getD k 0) = 256) := by
  refine ⟨?_, fun bs0 => ?_, fun bs0 => ?_⟩
  · simp only [parseImageStep, h]
    rw [if_neg (by norm_num : ¬((4:Nat) = 0))]
    set pos1 := fseekPos st.pos st.sob with hpos1
    set buf' : Nat → Nat := fun k => if k < 4 then byteAt s (pos1 + k) else st.bufP k
      with hbuf
    have hd : decodeLE st.blobsize buf' =
        byteAt s pos1 + 256 * byteAt s (pos1 + 1) +
        65536 * byteAt s (pos1 + 2) + 16777216 * byteAt s (pos1 + 3) := by
      rw [decodeLE_eq]
      · simp [hbuf]
      all_goals simp [hbuf, byteAt_lt]
    rw [hd]
    rcases hskip : barmaid_skip_padding s len jB (pos1 + 4)
        (st.sob + 4 + ((byteAt s pos1 + 256 * byteAt s (pos1 + 1) +
          65536 * byteAt s (pos1 + 2) + 16777216 * byteAt s (pos1 + 3) : Nat) : Int))
      with ⟨sob', pos'⟩
    exact ⟨_, rfl, rfl⟩
  · rw [decodeLE_eq] <;> decide
  · rw [decodeLE_eq] <;> decide

theorem claim_C4_witness :
    freadCount 46 (fseekPos 0 30) 4 = 4 ∧
    (∃ st', parseImageStep cs9 46 zeroJunk ⟨0, 30, 0, zeroJunk⟩ =
        .ok 34 36 st' ∧ st'.blobsize = 2) :=
  ⟨by decide,
   (claim_C4 cs9 46 zeroJunk ⟨0, 30, 0, zeroJunk⟩ (by decide)).1⟩

/-- Claim C5: in the container-detection step (at a post-padding position
`pos` with `container_start` provisionally `pos`): if the 2 bytes there equal
the compression marker `00 01`, the result is compressed with
`container_start = pos + 2`; if they do not match, it is uncompressed with
`container_start` the pre-peek position `pos`; if fewer than 2 bytes are
available the step fails (and `barmaid_parse_btw` then returns the failure
variant, as its `.fail` arm shows). -/
theorem claim_C5 (s : Nat → Nat) (len : Nat) (bufP : Nat → Nat) (pos : Nat)
    (sob : Int) (hsob : sob = (pos : Int)) :
    (pos + 2 ≤ len ∧ byteAt s pos = 0 ∧ byteAt s (pos + 1) = 1 →
      containerStep s len bufP pos sob = .ok true ((pos : Int) + 2) (pos + 2)) ∧
    (pos + 2 ≤ len ∧ ¬(byteAt s pos = 0 ∧ byteAt s (pos + 1) = 1) →
      containerStep s len bufP pos sob = .ok false ((pos : Int)) (pos + 2)) ∧
    (len < pos + 2 → ∃ p, containerStep s len bufP pos sob = .fail p) := by
  subst hsob
  refine ⟨?_, ?_, ?_⟩
  · rintro ⟨hle, hb0, hb1⟩
    have hr : freadCount len pos 2 = 2 := by simp only [freadCount]; omega
    simp only [containerStep, hr]
    rw [if_neg (by norm_num : ¬((2:Nat) ≠ 2))]
    have hm : memcmpBufSeq (fun k => if k < 2 then byteAt s (pos + k) else bufP k) 0
        barmaid_btw_zlib = true := by
      simp [memcmpBufSeq, barmaid_btw_zlib, hb0, hb1]
    rw [if_pos hm]
  · rintro ⟨hle, hnb⟩
    have hr : freadCount len pos 2 = 2 := by simp only [freadCount]; omega
    simp only [containerStep, hr]
    rw [if_neg (by norm_num : ¬((2:Nat) ≠ 2))]
    have hm : memcmpBufSeq (fun k => if k < 2 then byteAt s (pos + k) else bufP k) 0
        barmaid_btw_zlib = false := by
      simp [memcmpBufSeq, barmaid_btw_zlib]
      omega
    rw [if_neg (by simp [hm])]
  · intro hlt
    have hr : freadCount len pos 2 ≠ 2 := by simp only [freadCount]; omega
    simp only [containerStep]
    rw [if_pos hr]
    exact ⟨_, rfl⟩

theorem claim_C5_witness :
    ((42 : Int) = ((42 : Nat) : Int)) ∧
    (42 + 2 ≤ 46 ∧ byteAt cs9 42 = 0 ∧ byteAt cs9 (42 + 1) = 1) ∧
    containerStep cs9 46 zeroJunk 42 42 = .ok true 44 44 :=
  ⟨by decide, ⟨by decide, by decide, by decide⟩,
   (claim_C5 cs9 46 zeroJunk 42 42 (by decide)).1 ⟨by decide, by decide, by decide⟩⟩

theorem memcmpBufSeq_false_of_mismatch (buf : Nat → Nat) :
    ∀ seq : List Nat, ∀ m k0, k0 < seq.length → buf (m + k0) ≠ seq.getD k0 0 →
    memcmpBufSeq buf m seq = false := by
  intro seq
  induction seq with
  | nil => intro m k0 hk _; simp at hk
  | cons b rest ih =>
    intro m k0 hk hne
    cases k0 with
    | zero =>
      have : (buf m == b) = false := by
        simp only [beq_eq_false_iff_ne]
        simpa using hne
      simp [memcmpBufSeq, this]
    | succ k =>
      have : memcmpBufSeq buf (m + 1) rest = false := by
        refine ih (m + 1) k (by simpa using hk) ?_
        have : m + 1 + k = m + (k + 1) := by omega
        rw [this]
        simpa using hne
      simp [memcmpBufSeq, this]

/-- Claim C7: every stream whose first 26 bytes do not equal the start
signature — including streams shorter than 26 bytes — is rejected by
`barmaid_parse_btw` (failure variant), whatever the rest of the stream
contains. -/
theorem claim_C7 (s : Nat → Nat) (len : Nat) (jI jF jB1 jB2 jB3 jP : Nat → Nat)
    (h : len < 26 ∨ ¬(∀ k, k < 26 → byteAt s k = barmaid_btw_mseq_sof.getD k 0)) :
    (barmaid_parse_btw s len jI jF jB1 jB2 jB3 jP 0).1.success = false := by
  simp only [barmaid_parse_btw]
  cases hI : (barmaid_is_btw s len jI 0).1 with
  | false => simp [hI, blobsInit]
  | true =>
    by_cases hlen : len < 26
    · have hpast := find_seq_past_end s len jF (barmaid_is_btw s len jI 0).2 26
        barmaid_btw_end_of_meta (by norm_num) (by simp; omega)
      simp [hI, hpast, blobsInit]
    · rcases h with hl | hmap
      · omega
      · push_neg at hmap
        obtain ⟨k0, hk0, hne⟩ := hmap
        have hr : freadCount len 0 26 = 26 := by
          simp only [freadCount]; omega
        have hm : memcmpBufSeq
            (fun k => if k < freadCount len 0 26 then byteAt s (0 + k)
              else byteAt jI k) 0 barmaid_btw_mseq_sof = false := by
          refine memcmpBufSeq_false_of_mismatch _ barmaid_btw_mseq_sof 0 k0
            (by simp [barmaid_btw_mseq_sof]; omega) ?_
          simp only [hr]
          rw [if_pos (by omega : 0 + k0 < 26)]
          simpa using hne
        have : (barmaid_is_btw s len jI 0).1 = false := by
          simp only [barmaid_is_btw, hm, Bool.and_false]
        rw [hI] at this
        exact absurd this (by simp)

theorem claim_C7_witness :
    ((5 : Nat) < 26 ∨ ¬(∀ k, k < 26 →
      byteAt (fun _ => 0) k = barmaid_btw_mseq_sof.getD k 0)) ∧
    (barmaid_parse_btw (fun _ => 0) 5 zeroJunk zeroJunk zeroJunk zeroJunk
      zeroJunk zeroJunk 0).1.success = false :=
  ⟨Or.inl (by norm_num),
   claim_C7 (fun _ => 0) 5 zeroJunk zeroJunk zeroJunk zeroJunk zeroJunk zeroJunk
     (Or.inl (by norm_num))⟩

/-- Claim C10: whenever `barmaid_heuristic_png` returns `success = true`, the
two image ranges are non-degenerate and ordered
(`0 ≤ png_start[0] < png_end[0] ≤ png_start[1] < png_end[1]`), each
`png_end` equals the offset of the found end marker plus the marker's
length 12, and `prefix_end`, `container_start`, `container_end` remain `-1`
with `container_zlib` false. -/
theorem claim_C10 (s : Nat → Nat) (len : Nat) (jF1 jF2 jF3 jF4 : Nat → Nat)
    (pos0 : Nat) (b : Blobs)
    (hb : b = (barmaid_heuristic_png s len jF1 jF2 jF3 jF4 pos0).1)
    (h : b.success = true) :
    0 ≤ b.png_start0 ∧ b.png_start0 < b.png_end0 ∧ b.png_end0 ≤ b.png_start1 ∧
    b.png_start1 < b.png_end1 ∧
    b.prefix_end = -1 ∧ b.container_start = -1 ∧ b.container_end = -1 ∧
    b.container_zlib = false ∧
    b.png_end0 = (barmaid_find_seq s len jF2
      (barmaid_find_seq s len jF1 pos0 0 barmaid_start_mseq_png).2
      b.png_start0 barmaid_end_mseq_png).1 + 12 ∧
    b.png_end1 = (barmaid_find_seq s len jF4
      (barmaid_find_seq s len jF3
        (barmaid_find_seq s len jF2
          (barmaid_find_seq s len jF1 pos0 0 barmaid_start_mseq_png).2
          b.png_start0 barmaid_end_mseq_png).2
        b.png_end0 barmaid_start_mseq_png).2
      b.png_start1 barmaid_end_mseq_png).1 + 12 := by
  subst hb
  rcases h1 : barmaid_find_seq s len jF1 pos0 0 barmaid_start_mseq_png with ⟨ps0, pos1⟩
  simp only [barmaid_heuristic_png, h1] at h ⊢
  by_cases hp0 : ps0 < 0
  · simp only [if_pos hp0] at h
    simp [blobsInit] at h
  · simp only [if_neg hp0] at h ⊢
    rcases h2 : barmaid_find_seq s len jF2 pos1 ps0 barmaid_end_mseq_png with ⟨e0, pos2⟩
    simp only [h2] at h ⊢
    by_cases he0 : e0 < 0
    · simp only [if_pos he0] at h
      simp [blobsInit] at h
    · simp only [if_neg he0] at h ⊢
      rcases h3 : barmaid_find_seq s len jF3 pos2 (e0 + 12) barmaid_start_mseq_png
        with ⟨ps1, pos3⟩
      simp only [h3] at h ⊢
      by_cases hp1 : ps1 < 0
      · simp only [if_pos hp1] at h
        simp [blobsInit] at h
      · simp only [if_neg hp1] at h ⊢
        rcases h4 : barmaid_find_seq s len jF4 pos3 ps1 barmaid_end_mseq_png
          with ⟨e1, pos4⟩
        simp only [h4] at h ⊢
        by_cases he1 : e1 < 0
        · simp only [if_pos he1] at h
          simp [blobsInit] at h
        · simp only [if_neg he1] at h ⊢
          have lb1 := find_seq_lb s len jF1 pos0 0 barmaid_start_mseq_png
          have lb2 := find_seq_lb s len jF2 pos1 ps0 barmaid_end_mseq_png
          have lb3 := find_seq_lb s len jF3 pos2 (e0 + 12) barmaid_start_mseq_png
          have lb4 := find_seq_lb s len jF4 pos3 ps1 barmaid_end_mseq_png
          rw [h1] at lb1
          rw [h2] at lb2
          rw [h3] at lb3
          rw [h4] at lb4
          simp only at lb1 lb2 lb3 lb4
          simp only [blobsInit]
          refine ⟨?_, ?_, ?_, ?_, ?_, ?_, ?_, ?_, ?_, ?_⟩ <;>
            first | omega | trivial | simp [h2, h3, h4]

theorem claim_C10_witness :
    (barmaid_heuristic_png cs10 56 zeroJunk zeroJunk zeroJunk zeroJunk 0).1.success
      = true ∧
    0 ≤ (barmaid_heuristic_png cs10 56 zeroJunk zeroJunk zeroJunk zeroJunk
      0).1.png_start0 ∧
    (barmaid_heuristic_png cs10 56 zeroJunk zeroJunk zeroJunk zeroJunk
      0).1.png_start0 <
      (barmaid_heuristic_png cs10 56 zeroJunk zeroJunk zeroJunk zeroJunk
      0).1.png_end0 ∧
    (barmaid_heuristic_png cs10 56 zeroJunk zeroJunk zeroJunk zeroJunk
      0).1.png_end0 ≤
      (barmaid_heuristic_png cs10 56 zeroJunk zeroJunk zeroJunk zeroJunk
      0).1.png_start1 ∧
    (barmaid_heuristic_png cs10 56 zeroJunk zeroJunk zeroJunk zeroJunk
      0).1.png_start1 <
      (barmaid_heuristic_png cs10 56 zeroJunk zeroJunk zeroJunk zeroJunk
      0).1.png_end1 :=
  ⟨by decide,
   (claim_C10 cs10 56 zeroJunk zeroJunk zeroJunk zeroJunk 0 _ rfl (by decide)).1,
   (claim_C10 cs10 56 zeroJunk zeroJunk zeroJunk zeroJunk 0 _ rfl (by decide)).2.1,
   (claim_C10 cs10 56 zeroJunk zeroJunk zeroJunk zeroJunk 0 _ rfl (by decide)).2.2.1,
   (claim_C10 cs10 56 zeroJunk zeroJunk zeroJunk zeroJunk 0 _ rfl (by decide)).2.2.2.1⟩

theorem dump_slice_merge (s : Nat → Nat) (pos a b : Nat) :
    (List.range (a + b)).map (fun k => byteAt s (pos + k)) =
    (List.range a).map (fun k => byteAt s (pos + k)) ++
      (List.range b).map (fun k => byteAt s (pos + a + k)) := by
  rw [List.range_add, List.map_append, List.map_map]
  congr 1
  apply List.map_congr_left
  intro k _
  simp only [Function.comp_apply]
  congr 1
  omega

theorem dump_loop_succ (s : Nat → Nat) (len pos size i : Nat) (out : List Nat)
    (f : Nat) :
    barmaid_dump_loop s len pos size i out (f + 1) =
      if i < size then
        (if freadCount len pos (min (size - i) BUFF_SIZ) ≠ min (size - i) BUFF_SIZ
         then (false, out, pos + freadCount len pos (min (size - i) BUFF_SIZ))
         else barmaid_dump_loop s len
           (pos + freadCount len pos (min (size - i) BUFF_SIZ)) size
           (i + min (size - i) BUFF_SIZ)
           (out ++ (List.range (min (size - i) BUFF_SIZ)).map
             (fun k => byteAt s (pos + k))) f)
      else (true, out, pos) := rfl

theorem dump_loop_ok (s : Nat → Nat) (len : Nat) :
    ∀ f pos size i out, size - i ≤ BUFF_SIZ * f →
    pos + (size - i) ≤ len →
    barmaid_dump_loop s len pos size i out (f + 1) =
      (true, out ++ (List.range (size - i)).map (fun k => byteAt s (pos + k)),
        pos + (size - i)) := by
  intro f
  induction f with
  | zero =>
    intro pos size i out hf hfits
    have hsz : size - i = 0 := by simpa using hf
    have hni : ¬(i < size) := by omega
    rw [dump_loop_succ, if_neg hni, hsz]
    simp
  | succ f ih =>
    intro pos size i out hf hfits
    by_cases hi : i < size
    · have hr : freadCount len pos (min (size - i) BUFF_SIZ) =
          min (size - i) BUFF_SIZ := by
        simp only [freadCount, BUFF_SIZ] at *
        omega
      rw [dump_loop_succ, if_pos hi, if_neg (by omega :
        ¬(freadCount len pos (min (size - i) BUFF_SIZ) ≠ min (size - i) BUFF_SIZ))]
      rw [hr]
      rw [ih (pos + min (size - i) BUFF_SIZ) size (i + min (size - i) BUFF_SIZ) _
        (by simp only [BUFF_SIZ] at *; omega)
        (by simp only [BUFF_SIZ] at *; omega)]
      have e1 : size - i = min (size - i) BUFF_SIZ +
          (size - (i + min (size - i) BUFF_SIZ)) := by
        simp only [BUFF_SIZ] at *; omega
      simp only [Prod.mk.injEq]
      refine ⟨trivial, ?_, ?_⟩
      · conv_rhs => rw [e1]
        rw [dump_slice_merge, List.append_assoc]
      · omega
    · have hsz : size - i = 0 := by omega
      rw [dump_loop_succ, if_neg hi, hsz]
      simp

theorem dump_loop_fail (s : Nat → Nat) (len : Nat) :
    ∀ f pos size i out, i < size → len < pos + (size - i) →
    (barmaid_dump_loop s len pos size i out f).1 = false ∧
    ∃ K, (barmaid_dump_loop s len pos size i out f).2.1 =
      out ++ (List.range K).map (fun k => byteAt s (pos + k)) := by
  intro f
  induction f with
  | zero =>
    intro pos size i out hi hover
    exact ⟨rfl, 0, by simp [barmaid_dump_loop]⟩
  | succ f ih =>
    intro pos size i out hi hover
    by_cases hfull : freadCount len pos (min (size - i) BUFF_SIZ) =
        min (size - i) BUFF_SIZ
    · have hle : pos + min (size - i) BUFF_SIZ ≤ len := by
        simp only [freadCount, BUFF_SIZ] at *
        omega
      have hi' : i + min (size - i) BUFF_SIZ < size := by
        simp only [BUFF_SIZ] at *
        omega
      have hover' : len < pos + min (size - i) BUFF_SIZ +
          (size - (i + min (size - i) BUFF_SIZ)) := by
        simp only [BUFF_SIZ] at *
        omega
      rw [dump_loop_succ, if_pos hi, if_neg (by omega :
        ¬(freadCount len pos (min (size - i) BUFF_SIZ) ≠ min (size - i) BUFF_SIZ))]
      rw [hfull]
      obtain ⟨h1, K', h2⟩ := ih (pos + min (size - i) BUFF_SIZ) size
        (i + min (size - i) BUFF_SIZ)
        (out ++ (List.range (min (size - i) BUFF_SIZ)).map
          (fun k => byteAt s (pos + k))) hi' hover'
      refine ⟨h1, min (size - i) BUFF_SIZ + K', ?_⟩
      rw [h2, dump_slice_merge, List.append_assoc]
    · rw [dump_loop_succ, if_pos hi, if_pos hfull]
      exact ⟨rfl, 0, by simp⟩


/-- Claim C8: for a half-open range `[start, stop)` with
`0 ≤ start ≤ stop` (within `long` range): when `stop` is within the source,
`barmaid_dump_file` succeeds and writes exactly `stop - start` bytes,
byte-for-byte equal to the source bytes in `[start, stop)`; when the
(non-empty) range extends past the source's end it returns failure, and the
destination holds whatever verbatim prefix was already written. -/
theorem claim_C8 (s : Nat → Nat) (len : Nat) (start stop : Int)
    (h0 : 0 ≤ start) (h1 : start ≤ stop) (h2 : stop < 2 ^ 63) :
    (stop ≤ (len : Int) →
      barmaid_dump_file s len start stop =
        (true, (List.range (stop - start).toNat).map
          (fun k => byteAt s (start.toNat + k)),
          start.toNat + (stop - start).toNat)) ∧
    (start < stop → (len : Int) < stop →
      (barmaid_dump_file s len start stop).1 = false ∧
      ∃ K, (barmaid_dump_file s len start stop).2.1 =
        (List.range K).map (fun k => byteAt s (start.toNat + k))) := by
  have hlt : stop - start < 2 ^ 64 := by
    have : (2:Int) ^ 63 < 2 ^ 64 := by norm_num
    omega
  have hemod : (stop - start).emod (2 ^ 64) = stop - start :=
    Int.emod_eq_of_lt (by omega) hlt
  have hseek : fseekPos 0 start = start.toNat := by simp [fseekPos, h0]
  simp only [barmaid_dump_file, hemod, hseek]
  constructor
  · intro hle
    rw [show (stop - start).toNat / BUFF_SIZ + 2 =
      ((stop - start).toNat / BUFF_SIZ + 1) + 1 from rfl]
    rw [dump_loop_ok s len ((stop - start).toNat / BUFF_SIZ + 1) start.toNat
      (stop - start).toNat 0 []
      (by simp only [BUFF_SIZ]; omega)
      (by omega)]
    simp
  · intro hst hlen
    have hi : 0 < (stop - start).toNat := by omega
    have hover : len < start.toNat + ((stop - start).toNat - 0) := by omega
    obtain ⟨ha, K, hb⟩ := dump_loop_fail s len ((stop - start).toNat / BUFF_SIZ + 2)
      start.toNat (stop - start).toNat 0 [] hi hover
    exact ⟨ha, K, by simpa using hb⟩

theorem claim_C8_witness :
    ((0 : Int) ≤ 10 ∧ (10 : Int) ≤ 20 ∧ (20 : Int) < 2 ^ 63 ∧
      (20 : Int) ≤ ((30 : Nat) : Int)) ∧
    barmaid_dump_file (fun k => k) 30 10 20 =
      (true, (List.range ((20 : Int) - 10).toNat).map
        (fun k => byteAt (fun k => k) ((10 : Int).toNat + k)),
        (10 : Int).toNat + ((20 : Int) - 10).toNat) :=
  ⟨⟨by norm_num, by norm_num, by norm_num, by norm_num⟩,
   (claim_C8 (fun k => k) 30 10 20 (by norm_num) (by norm_num)
     (by norm_num)).1 (by norm_num)⟩

/-- Claim C9 counterexample: on the 46-byte well-formed stream `cs9`,
`barmaid_parse_btw` succeeds on the first run, but running it again
immediately afterwards (from the stream position the first run left, 44)
returns the failure variant: the two layouts differ, so two runs in
succession on the same unmodified stream are NOT identical. -/
theorem claim_C9_counterexample :
    (barmaid_parse_btw cs9 46 zeroJunk zeroJunk zeroJunk zeroJunk zeroJunk
      zeroJunk 0).1.success = true ∧
    (barmaid_parse_btw cs9 46 zeroJunk zeroJunk zeroJunk zeroJunk zeroJunk
      zeroJunk
      (barmaid_parse_btw cs9 46 zeroJunk zeroJunk zeroJunk zeroJunk zeroJunk
        zeroJunk 0).2).1.success = false ∧
    (barmaid_parse_btw cs9 46 zeroJunk zeroJunk zeroJunk zeroJunk zeroJunk
      zeroJunk 0).1 ≠
    (barmaid_parse_btw cs9 46 zeroJunk zeroJunk zeroJunk zeroJunk zeroJunk
      zeroJunk
      (barmaid_parse_btw cs9 46 zeroJunk zeroJunk zeroJunk zeroJunk zeroJunk
        zeroJunk 0).2).1 :=
  ⟨by decide, by decide, by decide⟩


/-- Claim C6, code evaluated at the failing input: on the 5-byte stream
`00 00 00 00 42` (`cs6`), starting at offset 0, a full 4-byte read cannot be
completed at offset 4 (only 1 byte remains before EOF), yet
`barmaid_skip_padding` reports a non-zero word found at offset 4 instead of
not-found: the partial `fread` returns 1 (non-zero, so the `!fread` check
passes) and leaves the stale bytes of the previous all-zero word in
`buff[1..3]`. -/
theorem claim_C6_eval :
    barmaid_skip_padding cs6 5 zeroJunk 0 0 = (4, 4) ∧ freadCount 5 4 4 ≠ 4 :=
  ⟨by decide, by decide⟩

theorem find_loop_succ_eq (s : Nat → Nat) (len : Nat) (seq : List Nat)
    (offset : Int) (buf : Nat → Nat) (pos chunk f : Nat) :
    barmaid_find_seq_loop s len seq offset buf pos chunk (f + 1) =
      if freadCount len pos BUFF_SIZ = 0 then (-1, pos)
      else
        match scanChunk
            (if chunk = 0 then
              freadIntoBuf buf s LONGEST_MAGIC_STRING pos (freadCount len pos BUFF_SIZ)
             else memmoveOverlap
              (freadIntoBuf buf s LONGEST_MAGIC_STRING pos (freadCount len pos BUFF_SIZ)))
            seq (if chunk = 0 then LONGEST_MAGIC_STRING else 0)
            (LONGEST_MAGIC_STRING + freadCount len pos BUFF_SIZ -
              (if chunk = 0 then LONGEST_MAGIC_STRING else 0)) with
        | some m =>
          (offset + ((m : Int) - (LONGEST_MAGIC_STRING : Int)) +
             (chunk : Int) * (BUFF_SIZ : Int),
           fseekPos (pos + freadCount len pos BUFF_SIZ)
             (offset + ((m : Int) - (LONGEST_MAGIC_STRING : Int)) +
               (chunk : Int) * (BUFF_SIZ : Int)))
        | none =>
          barmaid_find_seq_loop s len seq offset
            (if chunk = 0 then
              freadIntoBuf buf s LONGEST_MAGIC_STRING pos (freadCount len pos BUFF_SIZ)
             else memmoveOverlap
              (freadIntoBuf buf s LONGEST_MAGIC_STRING pos (freadCount len pos BUFF_SIZ)))
            (pos + freadCount len pos BUFF_SIZ) (chunk + 1) f := by
  conv_lhs => rw [barmaid_find_seq_loop]


theorem find_loop_step0_none (s : Nat → Nat) (len : Nat) (seq : List Nat)
    (offset : Int) (buf : Nat → Nat) (pos f0 f read pos' : Nat)
    (hf : f0 = f + 1) (hread : freadCount len pos BUFF_SIZ = read)
    (hne : read ≠ 0) (hpos : pos + read = pos')
    (hscan : scanChunk (freadIntoBuf buf s LONGEST_MAGIC_STRING pos read) seq
      LONGEST_MAGIC_STRING read = none) :
    barmaid_find_seq_loop s len seq offset buf pos 0 f0 =
      barmaid_find_seq_loop s len seq offset
        (freadIntoBuf buf s LONGEST_MAGIC_STRING pos read) pos' 1 f := by
  subst hf hpos
  subst hread
  rw [find_loop_succ_eq, if_neg hne]
  simp only [if_pos (rfl : (0 : Nat) = 0), if_true]
  rw [show LONGEST_MAGIC_STRING + freadCount len pos BUFF_SIZ - LONGEST_MAGIC_STRING
    = freadCount len pos BUFF_SIZ from by omega]
  rw [hscan]

theorem find_loop_stepS_none (s : Nat → Nat) (len : Nat) (seq : List Nat)
    (offset : Int) (buf : Nat → Nat) (pos chunk f0 f read pos' : Nat)
    (hc : ¬ chunk = 0) (hf : f0 = f + 1) (hread : freadCount len pos BUFF_SIZ = read)
    (hne : read ≠ 0) (hpos : pos + read = pos')
    (hscan : scanChunk
      (memmoveOverlap (freadIntoBuf buf s LONGEST_MAGIC_STRING pos read)) seq 0
      (LONGEST_MAGIC_STRING + read) = none) :
    barmaid_find_seq_loop s len seq offset buf pos chunk f0 =
      barmaid_find_seq_loop s len seq offset
        (memmoveOverlap (freadIntoBuf buf s LONGEST_MAGIC_STRING pos read))
        pos' (chunk + 1) f := by
  subst hf hpos
  subst hread
  rw [find_loop_succ_eq, if_neg hne]
  simp only [if_neg hc, if_true, if_false]
  rw [show LONGEST_MAGIC_STRING + freadCount len pos BUFF_SIZ - 0
    = LONGEST_MAGIC_STRING + freadCount len pos BUFF_SIZ from by omega]
  rw [hscan]

theorem find_loop_stepS_some (s : Nat → Nat) (len : Nat) (seq : List Nat)
    (offset : Int) (buf : Nat → Nat) (pos chunk f0 f read pos' m : Nat) (p : Int)
    (hc : ¬ chunk = 0) (hf : f0 = f + 1) (hread : freadCount len pos BUFF_SIZ = read)
    (hne : read ≠ 0) (hpos : pos + read = pos')
    (hp : offset + ((m : Int) - (LONGEST_MAGIC_STRING : Int)) +
      (chunk : Int) * (BUFF_SIZ : Int) = p)
    (hscan : scanChunk
      (memmoveOverlap (freadIntoBuf buf s LONGEST_MAGIC_STRING pos read)) seq 0
      (LONGEST_MAGIC_STRING + read) = some m) :
    barmaid_find_seq_loop s len seq offset buf pos chunk f0 = (p, fseekPos pos' p) := by
  subst hf hpos hp
  subst hread
  rw [find_loop_succ_eq, if_neg hne]
  simp only [if_neg hc, if_true, if_false]
  rw [show LONGEST_MAGIC_STRING + freadCount len pos BUFF_SIZ - 0
    = LONGEST_MAGIC_STRING + freadCount len pos BUFF_SIZ from by omega]
  rw [hscan]

theorem find_loop_step_eof (s : Nat → Nat) (len : Nat) (seq : List Nat)
    (offset : Int) (buf : Nat → Nat) (pos chunk f0 f : Nat)
    (hf : f0 = f + 1) (hread : freadCount len pos BUFF_SIZ = 0) :
    barmaid_find_seq_loop s len seq offset buf pos chunk f0 = (-1, pos) := by
  subst hf
  rw [find_loop_succ_eq, if_pos hread]

theorem cs1_byteAt (x : Nat) : byteAt cs1 x = cs1 x := by
  simp only [byteAt, cs1]
  split_ifs <;> rfl

/-- Claim C1, code evaluated at the failing input: on the 16384-byte stream
`cs1` the pattern `01 02 03 04` occurs at offset 8190, straddling the first
8 KiB chunk boundary, yet `barmaid_find_seq` returns not-found (-1): the
`fread` in the loop condition overwrites the whole buffer, including the
region `[BUFF_SIZ, BUFF_SIZ+32)` that the subsequent `memmove` copies into
the overlap area, so the overlap holds bytes of the NEW chunk (8192 bytes
ahead) instead of the previous chunk's tail, and a match straddling a
boundary followed by a full chunk is missed. -/
theorem claim_C1_eval :
    (barmaid_find_seq cs1 16384 zeroJunk 0 0 cseq1).1 = -1 ∧
    occursAt cs1 16384 cseq1 8190 = true := by
  refine ⟨?_, by decide⟩
  have hscan0 : scanChunk
      (freadIntoBuf (fun k => byteAt zeroJunk k) cs1 LONGEST_MAGIC_STRING 0 8192)
      cseq1 LONGEST_MAGIC_STRING 8192 = none := by
    show scanChunk
      (freadIntoBuf (fun k => byteAt zeroJunk k) cs1 32 0 8192) cseq1 32 8192 = none
    apply scanChunk_eq_none
    intro j hj1 hj2
    by_cases hj : j = 8222
    · subst hj
      decide
    · have hbuf : freadIntoBuf (fun k => byteAt zeroJunk k) cs1 32 0 8192 j
          = cs1 (j - 32) := by
        simp only [freadIntoBuf]
        rw [if_pos ⟨hj1, by omega⟩, show (0 + (j - 32)) = j - 32 from by omega]
        exact cs1_byteAt _
      have hne : freadIntoBuf (fun k => byteAt zeroJunk k) cs1 32 0 8192 j ≠ 1 := by
        rw [hbuf]
        simp only [cs1]
        split_ifs <;> omega
      simp only [cseq1, memcmpBufSeq, beq_eq_false_iff_ne.mpr hne, Bool.false_and]
  have hscan1 : scanChunk
      (memmoveOverlap (freadIntoBuf
        (freadIntoBuf (fun k => byteAt zeroJunk k) cs1 LONGEST_MAGIC_STRING 0 8192)
        cs1 LONGEST_MAGIC_STRING 8192 8192))
      cseq1 0 (LONGEST_MAGIC_STRING + 8192) = none := by
    show scanChunk
      (memmoveOverlap (freadIntoBuf
        (freadIntoBuf (fun k => byteAt zeroJunk k) cs1 32 0 8192) cs1 32 8192 8192))
      cseq1 0 8224 = none
    apply scanChunk_eq_none
    intro j hj1 hj2
    have hne : memmoveOverlap (freadIntoBuf
        (freadIntoBuf (fun k => byteAt zeroJunk k) cs1 32 0 8192) cs1 32 8192 8192) j
        ≠ 1 := by
      by_cases hj : j < 32
      · simp only [memmoveOverlap, LONGEST_MAGIC_STRING, BUFF_SIZ]
        rw [if_pos hj]
        simp only [freadIntoBuf]
        rw [if_pos ⟨by omega, by omega⟩, cs1_byteAt]
        simp only [cs1]
        split_ifs <;> omega
      · simp only [memmoveOverlap, LONGEST_MAGIC_STRING, BUFF_SIZ]
        rw [if_neg hj]
        simp only [freadIntoBuf]
        rw [if_pos ⟨by omega, by omega⟩, cs1_byteAt]
        simp only [cs1]
        split_ifs <;> omega
    simp only [cseq1, memcmpBufSeq, beq_eq_false_iff_ne.mpr hne, Bool.false_and]
  show (barmaid_find_seq_loop cs1 16384 cseq1 0 (fun k => byteAt zeroJunk k)
    (fseekPos 0 0) 0 (16384 + 2)).1 = -1
  rw [show fseekPos 0 0 = 0 from rfl]
  rw [find_loop_step0_none cs1 16384 cseq1 0 (fun k => byteAt zeroJunk k)
    0 (16384 + 2) 16385 8192 8192 rfl (by decide) (by decide) rfl hscan0]
  rw [find_loop_stepS_none cs1 16384 cseq1 0
    (freadIntoBuf (fun k => byteAt zeroJunk k) cs1 LONGEST_MAGIC_STRING 0 8192)
    8192 1 16385 16384 8192 16384 (by decide) rfl (by decide) (by decide) rfl hscan1]
  rw [find_loop_step_eof cs1 16384 cseq1 0
    (memmoveOverlap (freadIntoBuf
      (freadIntoBuf (fun k => byteAt zeroJunk k) cs1 LONGEST_MAGIC_STRING 0 8192)
      cs1 LONGEST_MAGIC_STRING 8192 8192))
    16384 (1 + 1) 16384 16383 rfl (by decide)]

theorem cs2_byteAt (x : Nat) : byteAt cs2 x = cs2 x := by
  simp only [byteAt, cs2]
  split_ifs <;> rfl

/-- Claim C2, code evaluated at the failing input: on the 8202-byte stream
`cs2` the pattern `AA BB CC DD` does not occur at all, yet
`barmaid_find_seq` returns offset 8201: in the short final chunk the
candidate at buffer index 41 compares the last genuine byte (`AA` at stream
offset 8201) followed by three STALE bytes left over from the first chunk
(stream bytes 10..12 = `BB CC DD`), because the scan checks every `i < read`
even when the window `[i, i+seq_len)` extends past the bytes read. -/
theorem claim_C2_eval :
    (barmaid_find_seq cs2 8202 zeroJunk 0 0 cseq2).1 = 8201 ∧
    ∀ p, occursAt cs2 8202 cseq2 p = false := by
  constructor
  · have hscan0 : scanChunk
        (freadIntoBuf (fun k => byteAt zeroJunk k) cs2 LONGEST_MAGIC_STRING 0 8192)
        cseq2 LONGEST_MAGIC_STRING 8192 = none := by
      show scanChunk
        (freadIntoBuf (fun k => byteAt zeroJunk k) cs2 32 0 8192) cseq2 32 8192 = none
      apply scanChunk_eq_none
      intro j hj1 hj2
      have hne : freadIntoBuf (fun k => byteAt zeroJunk k) cs2 32 0 8192 j ≠ 170 := by
        simp only [freadIntoBuf]
        rw [if_pos ⟨hj1, by omega⟩, cs2_byteAt]
        simp only [cs2]
        split_ifs <;> omega
      simp only [cseq2, memcmpBufSeq, beq_eq_false_iff_ne.mpr hne, Bool.false_and]
    have hscan1 : scanChunk
        (memmoveOverlap (freadIntoBuf
          (freadIntoBuf (fun k => byteAt zeroJunk k) cs2 LONGEST_MAGIC_STRING 0 8192)
          cs2 LONGEST_MAGIC_STRING 8192 10))
        cseq2 0 (LONGEST_MAGIC_STRING + 10) = some 41 := by
      show scanChunk
        (memmoveOverlap (freadIntoBuf
          (freadIntoBuf (fun k => byteAt zeroJunk k) cs2 32 0 8192) cs2 32 8192 10))
        cseq2 0 42 = some 41
      apply scanChunk_eq_some _ _ 42 0 41 (by omega) (by omega)
      · decide
      · intro i hi1 hi2
        have hne : memmoveOverlap (freadIntoBuf
            (freadIntoBuf (fun k => byteAt zeroJunk k) cs2 32 0 8192) cs2 32 8192 10) i
            ≠ 170 := by
          by_cases hi : i < 32
          · simp only [memmoveOverlap, LONGEST_MAGIC_STRING, BUFF_SIZ]
            rw [if_pos hi]
            simp only [freadIntoBuf]
            rw [if_neg (by omega), if_pos ⟨by omega, by omega⟩, cs2_byteAt]
            simp only [cs2]
            split_ifs <;> omega
          · simp only [memmoveOverlap, LONGEST_MAGIC_STRING, BUFF_SIZ]
            rw [if_neg hi]
            simp only [freadIntoBuf]
            rw [if_pos ⟨by omega, by omega⟩, cs2_byteAt]
            simp only [cs2]
            split_ifs <;> omega
        simp only [cseq2, memcmpBufSeq, beq_eq_false_iff_ne.mpr hne, Bool.false_and]
    show (barmaid_find_seq_loop cs2 8202 cseq2 0 (fun k => byteAt zeroJunk k)
      (fseekPos 0 0) 0 (8202 + 2)).1 = 8201
    rw [show fseekPos 0 0 = 0 from rfl]
    rw [find_loop_step0_none cs2 8202 cseq2 0 (fun k => byteAt zeroJunk k)
      0 (8202 + 2) 8203 8192 8192 rfl (by decide) (by decide) rfl hscan0]
    rw [find_loop_stepS_some cs2 8202 cseq2 0
      (freadIntoBuf (fun k => byteAt zeroJunk k) cs2 LONGEST_MAGIC_STRING 0 8192)
      8192 1 8203 8202 10 8202 41 8201 (by decide) rfl (by decide) (by decide) rfl
      (by norm_num [LONGEST_MAGIC_STRING, BUFF_SIZ]) hscan1]
  · intro p
    by_cases hp : p + 4 ≤ 8202
    · have hne : byteAt cs2 p ≠ 170 := by
        rw [cs2_byteAt]
        simp only [cs2]
        split_ifs <;> omega
      have hne' : (fun k => byteAt cs2 k) p ≠ 170 := hne
      simp only [occursAt, cseq2, memcmpBufSeq, beq_eq_false_iff_ne.mpr hne',
        Bool.false_and, Bool.and_false]
    · simp only [occursAt, cseq2, List.length_cons, List.length_nil,
        decide_eq_false hp, Bool.false_and]

/-- The `memcmp` only inspects `seq.length` bytes from index `m` on: buffers
agreeing there compare equal. -/
theorem memcmpBufSeq_congr (seq : List Nat) :
    ∀ (buf buf' : Nat → Nat) (m : Nat),
    (∀ k, k < seq.length → buf (m + k) = buf' (m + k)) →
    memcmpBufSeq buf m seq = memcmpBufSeq buf' m seq := by
  induction seq with
  | nil => intro buf buf' m _; rfl
  | cons b rest ih =>
    intro buf buf' m h
    have h0 : buf m = buf' m := by
      have h' := h 0 (by simp only [List.length_cons]; omega)
      rwa [Nat.add_zero] at h'
    have hrest := ih buf buf' (m + 1) (fun k hk => by
      have h' := h (k + 1) (by simp only [List.length_cons]; omega)
      rwa [show m + (k + 1) = m + 1 + k from by omega] at h')
    simp only [memcmpBufSeq, h0, hrest]

/-- The scan stops at the very first candidate index when it matches. -/
theorem scanChunk_first (buf : Nat → Nat) (seq : List Nat) (m count : Nat)
    (hc : count ≠ 0) (h : memcmpBufSeq buf m seq = true) :
    scanChunk buf seq m count = some m := by
  cases count with
  | zero => exact absurd rfl hc
  | succ c =>
    rw [scanChunk]
    rw [if_pos h]

/-- One iteration of the skip-padding loop: a full 4-byte read of a non-zero
word returns its offset immediately, regardless of the stale buffer
content. -/
theorem skip_loop_found (s : Nat → Nat) (len : Nat) (buf : Nat → Nat)
    (pos f : Nat) (hr : freadCount len pos 4 = 4)
    (hnz : ¬(byteAt s (pos + 0) = 0 ∧ byteAt s (pos + 1) = 0 ∧
             byteAt s (pos + 2) = 0 ∧ byteAt s (pos + 3) = 0)) :
    barmaid_skip_padding_loop s len buf pos (f + 1) = ((pos : Int), pos) := by
  conv_lhs => rw [barmaid_skip_padding_loop]
  simp only []
  rw [hr]
  rw [if_neg (by omega : ¬(4 : Nat) = 0)]
  have e0 : (if (0 : Nat) < 4 then byteAt s (pos + 0) else buf 0) = byteAt s (pos + 0) :=
    if_pos (by omega)
  have e1 : (if (1 : Nat) < 4 then byteAt s (pos + 1) else buf 1) = byteAt s (pos + 1) :=
    if_pos (by omega)
  have e2 : (if (2 : Nat) < 4 then byteAt s (pos + 2) else buf 2) = byteAt s (pos + 2) :=
    if_pos (by omega)
  have e3 : (if (3 : Nat) < 4 then byteAt s (pos + 3) else buf 3) = byteAt s (pos + 3) :=
    if_pos (by omega)
  simp only [e0, e1, e2, e3]
  rw [if_pos (show byteAt s (pos + 0) ≠ 0 ∨ byteAt s (pos + 1) ≠ 0 ∨
    byteAt s (pos + 2) ≠ 0 ∨ byteAt s (pos + 3) ≠ 0 from by omega)]

/-- `barmaid_skip_padding` whose very first word is fully read and non-zero
returns that word's offset, for every indeterminate stack content. -/
theorem skip_padding_found (s : Nat → Nat) (len : Nat) (junk : Nat → Nat)
    (pos0 : Nat) (offset : Int) (pos : Nat)
    (hpos : fseekPos pos0 offset = pos)
    (hr : freadCount len pos 4 = 4)
    (hnz : ¬(byteAt s (pos + 0) = 0 ∧ byteAt s (pos + 1) = 0 ∧
             byteAt s (pos + 2) = 0 ∧ byteAt s (pos + 3) = 0)) :
    barmaid_skip_padding s len junk pos0 offset = ((pos : Int), pos) := by
  show barmaid_skip_padding_loop s len (fun k => byteAt junk k)
    (fseekPos pos0 offset) (len + 2) = ((pos : Int), pos)
  rw [hpos, show len + 2 = (len + 1) + 1 from rfl]
  exact skip_loop_found s len _ pos (len + 1) hr hnz

/-- The little-endian decode only inspects buffer cells 0..3. -/
theorem decodeLE_congr (b0 : Nat) (buf buf' : Nat → Nat)
    (h0 : buf 0 = buf' 0) (h1 : buf 1 = buf' 1)
    (h2 : buf 2 = buf' 2) (h3 : buf 3 = buf' 3) :
    decodeLE b0 buf = decodeLE b0 buf' := by
  simp only [decodeLE, h0, h1, h2, h3]

/-- First chunk of the find loop with a scan hit: the result arithmetic of
the C code, with the hit position `m` and all counters passed explicitly. -/
theorem find_loop_step0_some (s : Nat → Nat) (len : Nat) (seq : List Nat)
    (offset : Int) (buf : Nat → Nat) (pos f0 f read pos' m : Nat) (p : Int)
    (hf : f0 = f + 1) (hread : freadCount len pos BUFF_SIZ = read)
    (hne : read ≠ 0) (hpos : pos + read = pos')
    (hp : offset + ((m : Int) - (LONGEST_MAGIC_STRING : Int)) +
      ((0 : Nat) : Int) * (BUFF_SIZ : Int) = p)
    (hscan : scanChunk (freadIntoBuf buf s LONGEST_MAGIC_STRING pos read) seq
      LONGEST_MAGIC_STRING read = some m) :
    barmaid_find_seq_loop s len seq offset buf pos 0 f0 = (p, fseekPos pos' p) := by
  subst hf hpos hp
  subst hread
  rw [find_loop_succ_eq, if_neg hne]
  simp only [if_pos (rfl : (0 : Nat) = 0), if_true]
  rw [show LONGEST_MAGIC_STRING + freadCount len pos BUFF_SIZ - LONGEST_MAGIC_STRING
    = freadCount len pos BUFF_SIZ from by omega]
  rw [hscan]

/-- On `cs9` the signature check succeeds for every stack content: all 26
compared bytes come from the full `fread`. -/
theorem is_btw_cs9 (jI : Nat → Nat) : barmaid_is_btw cs9 46 jI 0 = (true, 26) := by
  have hm : memcmpBufSeq
      (fun k => if k < freadCount 46 0 26 then byteAt cs9 (0 + k) else byteAt jI k)
      0 barmaid_btw_mseq_sof = true := by
    rw [memcmpBufSeq_congr barmaid_btw_mseq_sof _ (fun k => byteAt cs9 (0 + k)) 0
      (fun k hk => ?_)]
    · decide
    · have hk26 : k < 26 := by
        simpa only [barmaid_btw_mseq_sof, List.length_cons, List.length_nil] using hk
      show (if 0 + k < freadCount 46 0 26 then byteAt cs9 (0 + (0 + k))
        else byteAt jI (0 + k)) = byteAt cs9 (0 + (0 + k))
      rw [show freadCount 46 0 26 = 26 from by decide]
      rw [if_pos (by omega)]
  show ((freadCount 46 0 26 != 0) && memcmpBufSeq
      (fun k => if k < freadCount 46 0 26 then byteAt cs9 (0 + k) else byteAt jI k)
      0 barmaid_btw_mseq_sof, 0 + freadCount 46 0 26) = (true, 26)
  rw [hm]
  decide

/-- On `cs9` the end-of-metadata search hits at offset 26, the very first
candidate of the first chunk, for every stack content of `search_buff`. -/
theorem find_seq_cs9 (jF : Nat → Nat) :
    barmaid_find_seq cs9 46 jF 26 26 barmaid_btw_end_of_meta = (26, 26) := by
  have hm : memcmpBufSeq (freadIntoBuf (fun k => byteAt jF k) cs9 32 26 20)
      32 barmaid_btw_end_of_meta = true := by
    rw [memcmpBufSeq_congr barmaid_btw_end_of_meta _
      (fun j => byteAt cs9 (26 + (j - 32))) 32 (fun k hk => ?_)]
    · decide
    · have hk4 : k < 4 := by
        simpa only [barmaid_btw_end_of_meta, List.length_cons, List.length_nil] using hk
      show freadIntoBuf (fun k => byteAt jF k) cs9 32 26 20 (32 + k)
        = byteAt cs9 (26 + (32 + k - 32))
      simp only [freadIntoBuf]
      rw [if_pos ⟨by omega, by omega⟩]
  have hscan : scanChunk (freadIntoBuf (fun k => byteAt jF k) cs9 32 26 20)
      barmaid_btw_end_of_meta 32 20 = some 32 :=
    scanChunk_first _ _ 32 20 (by omega) hm
  show barmaid_find_seq_loop cs9 46 barmaid_btw_end_of_meta 26
    (fun k => byteAt jF k) (fseekPos 26 26) 0 (46 + 2) = (26, 26)
  rw [show fseekPos 26 (26 : Int) = 26 from by decide]
  rw [find_loop_step0_some cs9 46 barmaid_btw_end_of_meta 26 (fun k => byteAt jF k)
    26 (46 + 2) 47 20 46 32 26 rfl (by decide) (by decide) rfl (by decide) hscan]
  decide

/-- The first `barmaid_skip_padding` call of the parse of `cs9`: a full read
of the non-zero word at 30. -/
theorem skip_cs9_1 (j : Nat → Nat) :
    barmaid_skip_padding cs9 46 j 26 ((26 : Int) + 4) = (30, 30) :=
  (skip_padding_found cs9 46 j 26 ((26 : Int) + 4) 30 (by decide) (by decide)
    (by decide)).trans (by decide)

/-- One image iteration with a full 4-byte length read, evaluated: every
quantity is passed explicitly so the lemma instantiates to concrete
streams without unfolding anything large. -/
theorem parseImageStep_eval (s : Nat → Nat) (len : Nat) (jB : Nat → Nat)
    (stpos : Nat) (stsob : Int) (bs0 : Nat) (bufP : Nat → Nat) (pos1 : Nat)
    (hpos : fseekPos stpos stsob = pos1)
    (hr : freadCount len pos1 4 = 4)
    (bs : Nat)
    (hbs : decodeLE bs0 (fun k => if k < 4 then byteAt s (pos1 + k) else bufP k) = bs)
    (pe : Int) (hpe : stsob + 4 + (bs : Int) = pe)
    (a : Int) (b : Nat)
    (hskip : barmaid_skip_padding s len jB (pos1 + 4) pe = (a, b)) :
    parseImageStep s len jB ⟨stpos, stsob, bs0, bufP⟩ =
      .ok (stsob + 4) pe
        ⟨b, a, bs, fun k => if k < 4 then byteAt s (pos1 + k) else bufP k⟩ := by
  subst hpos hpe
  subst hbs
  unfold parseImageStep
  simp only []
  rw [hr]
  rw [if_neg (by omega : ¬(4 : Nat) = 0)]
  rw [hskip]

/-- First image iteration on `cs9`: blobsize 2, range [34, 36), padding skip
finds the non-zero word at 36 — for every previous buffer content `g`. -/
theorem img1_cs9 (jB g : Nat → Nat) :
    parseImageStep cs9 46 jB ⟨30, 30, 0, g⟩ =
      .ok 34 36 ⟨36, 36, 2, fun k => if k < 4 then byteAt cs9 (30 + k) else g k⟩ := by
  have h0 : (if (0 : Nat) < 4 then byteAt cs9 (30 + 0) else g 0) = byteAt cs9 (30 + 0) :=
    if_pos (by omega)
  have h1 : (if (1 : Nat) < 4 then byteAt cs9 (30 + 1) else g 1) = byteAt cs9 (30 + 1) :=
    if_pos (by omega)
  have h2 : (if (2 : Nat) < 4 then byteAt cs9 (30 + 2) else g 2) = byteAt cs9 (30 + 2) :=
    if_pos (by omega)
  have h3 : (if (3 : Nat) < 4 then byteAt cs9 (30 + 3) else g 3) = byteAt cs9 (30 + 3) :=
    if_pos (by omega)
  have hbs : decodeLE 0 (fun k => if k < 4 then byteAt cs9 (30 + k) else g k) = 2 := by
    rw [decodeLE_congr 0 (fun k => if k < 4 then byteAt cs9 (30 + k) else g k)
      (fun k => byteAt cs9 (30 + k)) h0 h1 h2 h3]
    decide
  have hskip : barmaid_skip_padding cs9 46 jB (30 + 4) 36 = ((36 : Int), 36) :=
    (skip_padding_found cs9 46 jB (30 + 4) 36 36 (by decide) (by decide)
      (by decide)).trans (by decide)
  exact (parseImageStep_eval cs9 46 jB 30 30 0 g 30 (by decide) (by decide)
    2 hbs 36 (by decide) 36 36 hskip).trans rfl

/-- Second image iteration on `cs9`: blobsize 2 again, range [40, 42),
padding skip finds the non-zero word at 42 — for every buffer content. -/
theorem img2_cs9 (jB g : Nat → Nat) :
    parseImageStep cs9 46 jB ⟨36, 36, 2, g⟩ =
      .ok 40 42 ⟨42, 42, 2, fun k => if k < 4 then byteAt cs9 (36 + k) else g k⟩ := by
  have h0 : (if (0 : Nat) < 4 then byteAt cs9 (36 + 0) else g 0) = byteAt cs9 (36 + 0) :=
    if_pos (by omega)
  have h1 : (if (1 : Nat) < 4 then byteAt cs9 (36 + 1) else g 1) = byteAt cs9 (36 + 1) :=
    if_pos (by omega)
  have h2 : (if (2 : Nat) < 4 then byteAt cs9 (36 + 2) else g 2) = byteAt cs9 (36 + 2) :=
    if_pos (by omega)
  have h3 : (if (3 : Nat) < 4 then byteAt cs9 (36 + 3) else g 3) = byteAt cs9 (36 + 3) :=
    if_pos (by omega)
  have hbs : decodeLE 2 (fun k => if k < 4 then byteAt cs9 (36 + k) else g k) = 2 := by
    rw [decodeLE_congr 2 (fun k => if k < 4 then byteAt cs9 (36 + k) else g k)
      (fun k => byteAt cs9 (36 + k)) h0 h1 h2 h3]
    decide
  have hskip : barmaid_skip_padding cs9 46 jB (36 + 4) 42 = ((42 : Int), 42) :=
    (skip_padding_found cs9 46 jB (36 + 4) 42 42 (by decide) (by decide)
      (by decide)).trans (by decide)
  exact (parseImageStep_eval cs9 46 jB 36 36 2 g 36 (by decide) (by decide)
    2 hbs 42 (by decide) 42 42 hskip).trans rfl

/-- Container detection on `cs9`: the 2 bytes at 42 are the zlib marker, so
the container is compressed and starts at 44 — for every stale buffer. -/
theorem containerStep_cs9 (g : Nat → Nat) :
    containerStep cs9 46 g 42 42 = .ok true 44 44 := by
  have hm : memcmpBufSeq
      (fun k => if k < freadCount 46 42 2 then byteAt cs9 (42 + k) else g k)
      0 barmaid_btw_zlib = true := by
    rw [memcmpBufSeq_congr barmaid_btw_zlib _ (fun k => byteAt cs9 (42 + k)) 0
      (fun k hk => ?_)]
    · decide
    · have hk2 : k < 2 := by
        simpa only [barmaid_btw_zlib, List.length_cons, List.length_nil] using hk
      show (if 0 + k < freadCount 46 42 2 then byteAt cs9 (42 + (0 + k)) else g (0 + k))
        = byteAt cs9 (42 + (0 + k))
      rw [show freadCount 46 42 2 = 2 from by decide]
      rw [if_pos (by omega)]
  show (if freadCount 46 42 2 ≠ 2 then ContResult.fail (42 + freadCount 46 42 2)
    else if memcmpBufSeq
        (fun k => if k < freadCount 46 42 2 then byteAt cs9 (42 + k) else g k)
        0 barmaid_btw_zlib = true
      then ContResult.ok true ((42 : Int) + 2) (42 + freadCount 46 42 2)
      else ContResult.ok false 42 (42 + freadCount 46 42 2)) = ContResult.ok true 44 44
  rw [if_neg (by decide : ¬freadCount 46 42 2 ≠ 2), if_pos hm]
  decide

/-- The image loop when both iterations succeed. -/
theorem parse_images_ok_ok (s : Nat → Nat) (len : Nat) (jB2 jB3 : Nat → Nat)
    (b1 : Blobs) (st0 : ImgState) (ps0 pe0 : Int) (st1 : ImgState)
    (ps1 pe1 : Int) (st2 : ImgState)
    (h1 : parseImageStep s len jB2 st0 = .ok ps0 pe0 st1)
    (h2 : parseImageStep s len jB3 st1 = .ok ps1 pe1 st2) :
    barmaid_parse_images s len jB2 jB3 b1 st0 =
      barmaid_parse_container s len
        { b1 with
            png_start0 := ps0
            png_end0 := pe0
            png_start1 := ps1
            png_end1 := pe1 } st2 := by
  unfold barmaid_parse_images
  rw [h1]
  simp only []
  rw [h2]

/-- The container stage when detection succeeds with positive offsets. -/
theorem parse_container_ok (s : Nat → Nat) (len : Nat) (b3 : Blobs)
    (stpos : Nat) (stsob : Int) (bs : Nat) (bufP : Nat → Nat)
    (zl : Bool) (cstart : Int) (p : Nat)
    (hstep : containerStep s len bufP stpos stsob = .ok zl cstart p)
    (hok : ¬(cstart ≤ 0 ∨ (len : Int) ≤ 0)) :
    barmaid_parse_container s len b3 ⟨stpos, stsob, bs, bufP⟩ =
      ({ b3 with
           success := true
           container_start := cstart
           container_zlib := zl
           container_end := (len : Int) }, p) := by
  unfold barmaid_parse_container
  simp only []
  rw [hstep]
  simp only []
  rw [if_neg hok]

/-- The full parse of `cs9` from position 0 evaluates to the same successful
layout for EVERY choice of the six indeterminate stack buffers. -/
theorem parse_cs9_eval (jI jF jB1 jB2 jB3 jP : Nat → Nat) :
    barmaid_parse_btw cs9 46 jI jF jB1 jB2 jB3 jP 0 =
      ({ success := true, prefix_end := 30, png_start0 := 34, png_start1 := 40,
         png_end0 := 36, png_end1 := 42, container_zlib := true,
         container_start := 44, container_end := 46 }, 44) := by
  unfold barmaid_parse_btw
  simp only [is_btw_cs9, Bool.not_true, Bool.false_eq_true, if_false]
  simp only [find_seq_cs9]
  rw [if_neg (by decide : ¬((26 : Int) < 0))]
  simp only [skip_cs9_1]
  rw [parse_images_ok_ok cs9 46 jB2 jB3 _ _ 34 36 _ 40 42 _
    (img1_cs9 jB2 (fun k => byteAt jP k))
    (img2_cs9 jB3 (fun k => if k < 4 then byteAt cs9 (30 + k) else byteAt jP k))]
  rw [parse_container_ok cs9 46 _ 42 42 2 _ true 44 44 (containerStep_cs9 _)
    (by decide)]
  decide

/-- Claim C9 (amended): re-running `barmaid_parse_btw` on the same unmodified
stream yields an identical layout only under two provisos, both necessary:
the second run must start from the same stream position as the first (the
stream is rewound between runs), and the layout must not depend on the
indeterminate stack bytes of the run.  First conjunct: on the well-formed
stream `cs9`, where every buffer read is complete, BOTH provisos hold —
every run from position 0 succeeds with the same layout for EVERY choice of
the six indeterminate stack buffers of each run, so a rewound re-run with
fresh stack garbage reproduces the first layout exactly.  Second conjunct:
the stack-bytes proviso is not vacuous — on `cs9b` the final
`barmaid_skip_padding` performs a partial 2-byte read and the stale tail
decides the outcome: the parse fails with all-zero stack bytes and succeeds
with all-one stack bytes even from the same start position.  (Without the
rewind the second run generally fails: `claim_C9_counterexample`.) -/
theorem claim_C9_amended
    (jI jF jB1 jB2 jB3 jP jI' jF' jB1' jB2' jB3' jP' : Nat → Nat) :
    ((barmaid_parse_btw cs9 46 jI jF jB1 jB2 jB3 jP 0).1.success = true ∧
     (barmaid_parse_btw cs9 46 jI' jF' jB1' jB2' jB3' jP' 0).1 =
       (barmaid_parse_btw cs9 46 jI jF jB1 jB2 jB3 jP 0).1) ∧
    (barmaid_parse_btw cs9b 42 zeroJunk zeroJunk zeroJunk zeroJunk zeroJunk
        zeroJunk 0).1.success = false ∧
    (barmaid_parse_btw cs9b 42 zeroJunk zeroJunk zeroJunk zeroJunk oneJunk
        zeroJunk 0).1.success = true := by
  refine ⟨⟨?_, ?_⟩, by decide, by decide⟩
  · rw [parse_cs9_eval jI jF jB1 jB2 jB3 jP]
  · rw [parse_cs9_eval jI' jF' jB1' jB2' jB3' jP',
      parse_cs9_eval jI jF jB1 jB2 jB3 jP]

theorem claim_C9_amended_witness :
    ((barmaid_parse_btw cs9 46 zeroJunk zeroJunk zeroJunk zeroJunk zeroJunk
        zeroJunk 0).1.success = true ∧
     (barmaid_parse_btw cs9 46 oneJunk oneJunk oneJunk oneJunk oneJunk
        oneJunk 0).1 =
       (barmaid_parse_btw cs9 46 zeroJunk zeroJunk zeroJunk zeroJunk zeroJunk
        zeroJunk 0).1) ∧
    (barmaid_parse_btw cs9b 42 zeroJunk zeroJunk zeroJunk zeroJunk zeroJunk
        zeroJunk 0).1.success = false ∧
    (barmaid_parse_btw cs9b 42 zeroJunk zeroJunk zeroJunk zeroJunk oneJunk
        zeroJunk 0).1.success = true :=
  claim_C9_amended zeroJunk zeroJunk zeroJunk zeroJunk zeroJunk zeroJunk
    oneJunk oneJunk oneJunk oneJunk oneJunk oneJunk
